import Mathlib

/-!
Verification development for the Markdown-to-rich-document rendering pipeline
of the AI-Booksmith backend.

Sources embedded (shallowly) here:
- src/backend/src/utils/index.util.ts
    processInlineContent, renderInlineTokens, processMarkdownToDocx, renderMarkdown
- src/backend/src/services/export.service.ts
    exportAsDocxService (chapter loop), exportAsPDFService
- the DOCX_STYLES / TYPOGRAPHY constants module

Modelling conventions:
- JS strings are modelled as List Char (named Str below); a Markdown token is the
  markdown-it token shape restricted to the fields the code reads (type, tag,
  content, children).
- md.parse is an external collaborator; functions that call it take a
  (parse : Str -> List Token) parameter, and the token-stream-processing cores are
  stated over arbitrary token lists.
- The docx Paragraph / TextRun constructor calls are modelled as records holding
  exactly the properties the source passes; a pdfkit document is modelled as the
  ordered list of drawing commands issued to it plus the ambient font/size/color
  state (set-then-draw).  Floating-point layout amounts (moveDown distances,
  lineGap values, indents) are not observable in any claim and are not recorded
  in the command trace.
- JS exceptions are modelled with Except; a thrown APIError is an APIErrorT value.
-/

/-- JS strings, modelled as character lists. -/
abbrev Str := List Char

/-- A markdown-it token, restricted to the fields the renderers read:
type, tag (optional), content, and children (null or an array, for inline tokens). -/
inductive Token where
  | mk : String → Option String → Str → Option (List Token) → Token

/-- The token's type tag, e.g. "heading_open", "inline", "text". -/
def Token.type : Token → String
  | .mk ty _ _ _ => ty

/-- The token's html tag, e.g. "h2" on heading tokens (undefined modelled as none). -/
def Token.tag : Token → Option String
  | .mk _ tg _ _ => tg

/-- The token's literal content (leaf/inline tokens); absent content is []. -/
def Token.content : Token → Str
  | .mk _ _ c _ => c

/-- The token's child tokens: none models JS null, some cs an array (possibly empty). -/
def Token.children : Token → Option (List Token)
  | .mk _ _ _ ch => ch

/-- Block token with no tag, content or children. -/
def blockTok (ty : String) : Token := .mk ty none [] none

/-- Token with a tag (used for heading_open, whose tag is read). -/
def tagTok (ty : String) (tg : String) : Token := .mk ty (some tg) [] none

/-- A text inline token carrying literal content. -/
def textTok (c : Str) : Token := .mk "text" none c none

/-- A code_inline token carrying literal content. -/
def codeInlineTok (c : Str) : Token := .mk "code_inline" none c none

/-- An inline container token with content string and child tokens. -/
def inlineTok (c : Str) (cs : List Token) : Token := .mk "inline" none c (some cs)

/-! Style constant modules (constants/index.constant.ts). -/

namespace DOCX_STYLES

namespace fonts

def body : String := "Charter"

def heading : String := "Inter"

end fonts

namespace sizes

def title : Nat := 32

def subtitle : Nat := 20

def author : Nat := 18

def chapterTitle : Nat := 24

def h1 : Nat := 20

def h2 : Nat := 18

def h3 : Nat := 16

def body : Nat := 12

end sizes

namespace spacing

def paragraphBefore : Nat := 200

def paragraphAfter : Nat := 200

def chapterBefore : Nat := 400

def chapterAfter : Nat := 300

def headingBefore : Nat := 300

def headingAfter : Nat := 150

end spacing

end DOCX_STYLES

namespace TYPOGRAPHY

namespace fonts

def serif : String := "Times-Roman"

def serifBold : String := "Times-Bold"

def serifItalic : String := "Times-Italic"

def sans : String := "Helvetica"

def sansBold : String := "Helvetica-Bold"

end fonts

namespace sizes

def title : Nat := 28

def author : Nat := 16

def chapterTitle : Nat := 20

def h1 : Nat := 18

def h2 : Nat := 16

def h3 : Nat := 14

def body : Nat := 12

end sizes

namespace colors

def text : String := "333333"

def heading : String := "1a1a1a"

end colors

end TYPOGRAPHY

/-! The docx TextRun / Paragraph constructor calls, as records of the properties
the source passes (absent JS properties are the defaults below). -/

/-- A docx TextRun constructor call. -/
structure TextRunT where
  text : Str
  bold : Bool := false
  italics : Bool := false
  font : Option String := none
  size : Option Nat := none
  color : Option String := none
  deriving DecidableEq, Repr

/-- docx HeadingLevel values used by the code. -/
inductive HeadingLevelT where
  | heading1
  | heading2
  | heading3
  deriving DecidableEq, Repr

/-- docx AlignmentType values used by the code. -/
inductive AlignmentT where
  | justified
  | center
  deriving DecidableEq, Repr

/-- A docx Paragraph constructor call, as the record of properties passed. -/
structure ParagraphT where
  text : Option Str := none
  children : List TextRunT := []
  heading : Option HeadingLevelT := none
  alignment : Option AlignmentT := none
  spacingBefore : Option Nat := none
  spacingAfter : Option Nat := none
  indentLeft : Option Nat := none
  pageBreakBefore : Bool := false
  borderLeft : Bool := false
  borderBottom : Bool := false
  shadingFill : Option String := none
  deriving DecidableEq, Repr

/-! Inline Run Builder, flow-document variant:
processInlineContent (index.util.ts lines 160-225). -/

/-- The mutable state of processInlineContent: currentFormatting, textBuffer and
the accumulated textRuns. -/
structure InlineState where
  bold : Bool := false
  italic : Bool := false
  buffer : Str := []
  runs : List TextRunT := []
  deriving DecidableEq, Repr

/-- The TextRun pushed by flushText: body font, size body*2 (half-points). -/
def bodyRun (text : Str) (bold italic : Bool) : TextRunT :=
  { text := text, bold := bold, italics := italic,
    font := some DOCX_STYLES.fonts.body, size := some (DOCX_STYLES.sizes.body * 2) }

/-- flushText: a no-op when textBuffer.trim() is empty (the buffer is KEPT),
otherwise pushes a run with the current formatting and clears the buffer. -/
def flushText (st : InlineState) : InlineState :=
  if st.buffer.all (·.isWhitespace) then st
  else { st with runs := st.runs ++ [bodyRun st.buffer st.bold st.italic], buffer := [] }

/-- The for-loop of processInlineContent over the child tokens. -/
def processInlineGo (st : InlineState) : List Token → InlineState
  | [] => st
  | t :: rest =>
    if t.type = "strong_open" then processInlineGo { flushText st with bold := true } rest
    else if t.type = "strong_close" then processInlineGo { flushText st with bold := false } rest
    else if t.type = "em_open" then processInlineGo { flushText st with italic := true } rest
    else if t.type = "em_close" then processInlineGo { flushText st with italic := false } rest
    else if t.type = "text" then processInlineGo { st with buffer := st.buffer ++ t.content } rest
    else processInlineGo st rest

/-- processInlineContent: run the loop from the initial state, flush the remaining
buffer, return the accumulated runs. -/
def processInlineContent (children : List Token) : List TextRunT :=
  (flushText (processInlineGo {} children)).runs

/-! Drawing-surface document model (pdfkit PDFDocument). -/

/-- One drawing command issued to the pdf document.  A text draw records the
string, the ambient font and font size at the time of the call, and the
continued flag passed (absent means false). -/
inductive PdfCmd where
  | textDraw (s : Str) (font : String) (fontSize : Nat) (continued : Bool)
  | moveDown
  | addPage
  | image
  | hline
  deriving DecidableEq, Repr

/-- The pdf document: ambient font/size/color state plus the ordered command trace. -/
structure PdfDoc where
  curFont : String := "Helvetica"
  curSize : Nat := 12
  curColor : String := "black"
  cmds : List PdfCmd := []
  deriving DecidableEq, Repr

/-- doc.font(f) -/
def PdfDoc.font (d : PdfDoc) (f : String) : PdfDoc := { d with curFont := f }

/-- doc.fontSize(n) -/
def PdfDoc.fontSize (d : PdfDoc) (n : Nat) : PdfDoc := { d with curSize := n }

/-- doc.fillColor(c) -/
def PdfDoc.fillColor (d : PdfDoc) (c : String) : PdfDoc := { d with curColor := c }

/-- doc.text(s, opts): records the draw with the ambient font/size and the
continued flag (layout options are not observable here). -/
def PdfDoc.text (d : PdfDoc) (s : Str) (continued : Bool) : PdfDoc :=
  { d with cmds := d.cmds ++ [.textDraw s d.curFont d.curSize continued] }

/-- doc.moveDown(...) -/
def PdfDoc.moveDown (d : PdfDoc) : PdfDoc := { d with cmds := d.cmds ++ [.moveDown] }

/-- doc.addPage() -/
def PdfDoc.addPage (d : PdfDoc) : PdfDoc := { d with cmds := d.cmds ++ [.addPage] }

/-- doc.image(...) -/
def PdfDoc.image (d : PdfDoc) : PdfDoc := { d with cmds := d.cmds ++ [.image] }

/-- the moveTo/lineTo/stroke sequence of the hr branch, as one command. -/
def PdfDoc.hline (d : PdfDoc) : PdfDoc := { d with cmds := d.cmds ++ [.hline] }

/-- The InlineRenderOptions bag (align / indent / lineGap).  These only affect
layout, which the command trace does not record; the parameter is kept for
signature fidelity with the source. -/
structure InlineRenderOptions where
  align : Option String := none
  indent : Option Nat := none
  lineGap : Option Nat := none
  deriving DecidableEq, Repr

/-! Inline Run Builder, drawing-surface variant:
renderInlineTokens (index.util.ts lines 479-557). -/

/-- flushBuffer: emit any nonempty buffer with the given current font
(continued absent, i.e. false); an empty buffer emits nothing. -/
def flushDoc (d : PdfDoc) (f : String) (buf : Str) : PdfDoc :=
  if buf ≠ [] then (d.font f).text buf false else d

/-- The token loop of renderInlineTokens, carrying currentFont and textBuffer.
Style boundaries flush the buffer; code_inline flushes, draws its content in
Courier with continued true, then restores the current font.  At the end a
nonempty buffer is drawn with continued false, an empty one as doc.text("")
with the ambient device font. -/
def renderInlineGo (d : PdfDoc) (curFont : String) (buffer : Str) : List Token → PdfDoc
  | [] =>
    if buffer ≠ [] then (d.font curFont).text buffer false
    else d.text [] false
  | t :: rest =>
    if t.type = "text" then renderInlineGo d curFont (buffer ++ t.content) rest
    else if t.type = "strong_open" then
      renderInlineGo (flushDoc d curFont buffer) TYPOGRAPHY.fonts.serifBold [] rest
    else if t.type = "strong_close" then
      renderInlineGo (flushDoc d curFont buffer) TYPOGRAPHY.fonts.serif [] rest
    else if t.type = "em_open" then
      renderInlineGo (flushDoc d curFont buffer) TYPOGRAPHY.fonts.serifItalic [] rest
    else if t.type = "em_close" then
      renderInlineGo (flushDoc d curFont buffer) TYPOGRAPHY.fonts.serif [] rest
    else if t.type = "code_inline" then
      let d2 := (((flushDoc d curFont buffer).font "Courier").text t.content true).font curFont
      renderInlineGo d2 curFont [] rest
    else renderInlineGo d curFont buffer rest

/-- renderInlineTokens: early return when the token list is empty, otherwise run
the loop with currentFont = serif and an empty buffer. -/
def renderInlineTokens (d : PdfDoc) (tokens : List Token) (options : InlineRenderOptions) :
    PdfDoc :=
  match tokens with
  | [] => d
  | _ :: _ => renderInlineGo d TYPOGRAPHY.fonts.serif [] tokens

/-! Typed API errors (lib/api-error.lib.ts APIError, restricted to the fields the
spec's error taxonomy names: status code, message, type, and the detail field). -/

/-- An APIError as thrown by the renderers and services. -/
structure APIErrorT where
  statusCode : Nat
  message : String
  errType : String
  detailField : String
  deriving DecidableEq, Repr

/-- The error re-raised by the processMarkdownToDocx catch block (lines 452-469). -/
def contentProcessingErrorMarkdown : APIErrorT :=
  ⟨500, "Error processing markdown content", "ContentProcessingError", "markdown"⟩

/-- The error re-raised by the renderMarkdown catch block (lines 761-776). -/
def pdfRenderingErrorMarkdown : APIErrorT :=
  ⟨500, "Error rendering markdown to PDF", "PDFRenderingError", "markdown"⟩

/-- The error re-raised by the chapter loops of both export services. -/
def contentProcessingErrorChapter : APIErrorT :=
  ⟨500, "Error processing chapter content", "ContentProcessingError", "chapter"⟩

/-- The error thrown when the cover image fetch fails. -/
def imageProcessingErrorCover : APIErrorT :=
  ⟨500, "Error processing cover image", "ImageProcessingError", "coverImageUrl"⟩

/-- 400 error for a missing book id. -/
def invalidInputBookId : APIErrorT :=
  ⟨400, "Book ID is required to generate PDF", "InvalidInput", "bookId"⟩

/-- 404 error when the book is not found. -/
def notFoundBook : APIErrorT :=
  ⟨404, "Book not found", "NotFound", "bookId"⟩

/-- 403 error when the book belongs to another user. -/
def forbiddenBook : APIErrorT :=
  ⟨403, "You do not have permission to access this book", "Forbidden", "userId"⟩

/-! Block Renderer, flow-document backend:
processMarkdownToDocx (index.util.ts lines 230-474). -/

/-- The list context of both block renderers. -/
inductive ListType where
  | bullet
  | ordered
  deriving DecidableEq, Repr

/-- Render state of processMarkdownToDocx: inList, listType, orderedCounter and
the accumulated paragraphs. -/
structure DocxState where
  inList : Bool := false
  listType : Option ListType := none
  orderedCounter : Nat := 1
  paragraphs : List ParagraphT := []
  deriving DecidableEq, Repr

/-- Is the char an ASCII decimal digit. -/
def isDigitChar (c : Char) : Bool := 48 ≤ c.toNat ∧ c.toNat ≤ 57

/-- Accumulate a decimal number over an all-digit list (none on any non-digit). -/
def parseDigitsAux (acc : Nat) : List Char → Option Nat
  | [] => some acc
  | c :: rest =>
    if isDigitChar c then parseDigitsAux (acc * 10 + (c.toNat - 48)) rest else none

/-- Number(tag.substring(1)): Number("") is 0, a decimal string is its value, a
non-numeric string is NaN (none).  Heading tags are of the shape "hN", for
which this agrees with JS (exotic numeric forms do not occur there). -/
def jsNumber (s : String) : Option Int :=
  match s.toList with
  | [] => some 0
  | '-' :: rest =>
    if rest = [] then none
    else (parseDigitsAux 0 rest).map fun n => -(n : Int)
  | cs => (parseDigitsAux 0 cs).map Int.ofNat

/-- The heading level read from the token tag: Number(token.tag?.substring(1)),
where a missing tag gives NaN (none). -/
def levelOfTag (tg : Option String) : Option Int :=
  tg.bind fun x => jsNumber (x.drop 1)

/-- The switch(level) of the heading_open branch: levels 1-3 select their heading
style and size, everything else (including 0 and NaN) falls back to the
level-1 heading style with the level-3 size.  NOTE: the source computes
fontSize but never uses it in the emitted docx Paragraph. -/
def docxHeadingStyle (lvl : Option Int) : HeadingLevelT × Nat :=
  if lvl = some 1 then (.heading1, DOCX_STYLES.sizes.h1)
  else if lvl = some 2 then (.heading2, DOCX_STYLES.sizes.h2)
  else if lvl = some 3 then (.heading3, DOCX_STYLES.sizes.h3)
  else (.heading1, DOCX_STYLES.sizes.h3)

/-- The heading Paragraph: text, heading level, heading spacing (no font size). -/
def headingPara (hl : HeadingLevelT) (content : Str) : ParagraphT :=
  { text := some content, heading := some hl,
    spacingBefore := some DOCX_STYLES.spacing.headingBefore,
    spacingAfter := some DOCX_STYLES.spacing.headingAfter }

/-- The normal-paragraph Paragraph: runs, list-reduced spacing, justified. -/
def paraBlock (runs : List TextRunT) (inList : Bool) : ParagraphT :=
  { children := runs,
    spacingBefore := some (if inList then 100 else DOCX_STYLES.spacing.paragraphBefore),
    spacingAfter := some (if inList then 100 else DOCX_STYLES.spacing.paragraphAfter),
    alignment := some .justified }

/-- The empty spacer Paragraph pushed after a list closes. -/
def spacerPara : ParagraphT := { text := some [], spacingAfter := some 100 }

/-- The ordered-list numeral prefix emitted for the current counter value. -/
def numStr (n : Nat) : Str := (Nat.repr n).toList ++ ". ".toList

/-- The list-item Paragraph: a leading bullet TextRun (body font, no size)
followed by the item's runs, small spacing, 0.5 inch indent. -/
def itemPara (bullet : Str) (runs : List TextRunT) : ParagraphT :=
  { children := { text := bullet, font := some DOCX_STYLES.fonts.body } :: runs,
    spacingBefore := some 50, spacingAfter := some 50, indentLeft := some 720 }

/-- The blockquote Paragraph: one italic gray run, indented, left border. -/
def quotePara (content : Str) : ParagraphT :=
  { children := [{ text := content, italics := true, color := some "666666",
                   font := some DOCX_STYLES.fonts.body }],
    spacingBefore := some 200, spacingAfter := some 200, indentLeft := some 720,
    alignment := some .justified, borderLeft := true }

/-- The code-block Paragraph: one monospace run, shaded. -/
def codePara (content : Str) : ParagraphT :=
  { children := [{ text := content, font := some "Courier New", size := some 20,
                   color := some "333333" }],
    spacingBefore := some 200, spacingAfter := some 200, shadingFill := some "f5f5f5" }

/-- The horizontal-rule Paragraph: empty text with a bottom border. -/
def hrPara : ParagraphT :=
  { text := some [], borderBottom := true,
    spacingBefore := some 200, spacingAfter := some 200 }

/-- The paragraph pushed with pageBreakBefore: true (export.service.ts). -/
def pageBreakPara : ParagraphT := { text := some [], pageBreakBefore := true }

/-- One iteration of the processMarkdownToDocx token loop, at token t with the
remaining stream rest (so tokens[i+1] is rest[0], tokens[i+2] is rest[1]).
Returns the new state and how many tokens of rest are consumed in addition to t
(the i += k skips).  Branches whose lookahead does not match fall through every
if and advance by one token. -/
def docxStep (t : Token) (rest : List Token) (s : DocxState) : DocxState × Nat :=
  if t.type = "heading_open" then
    match rest.head? with
    | some t1 =>
      if t1.type = "inline" then
        let hs := docxHeadingStyle (levelOfTag t.tag)
        ({ s with paragraphs := s.paragraphs ++ [headingPara hs.1 t1.content] }, 2)
      else (s, 0)
    | none => (s, 0)
  else if t.type = "paragraph_open" then
    match rest.head? with
    | some t1 =>
      if t1.type = "inline" ∧ t1.children.isSome then
        let runs := processInlineContent (t1.children.getD [])
        ({ s with paragraphs := s.paragraphs ++ [paraBlock runs s.inList] }, 2)
      else (s, 0)
    | none => (s, 0)
  else if t.type = "bullet_list_open" then
    ({ s with inList := true, listType := some .bullet }, 0)
  else if t.type = "bullet_list_close" then
    ({ s with inList := false, listType := none,
              paragraphs := s.paragraphs ++ [spacerPara] }, 0)
  else if t.type = "ordered_list_open" then
    ({ s with inList := true, listType := some .ordered, orderedCounter := 1 }, 0)
  else if t.type = "ordered_list_close" then
    ({ s with inList := false, listType := none,
              paragraphs := s.paragraphs ++ [spacerPara] }, 0)
  else if t.type = "list_item_open" then
    match rest[1]? with
    | some t2 =>
      if t2.type = "inline" ∧ t2.children.isSome then
        let runs := processInlineContent (t2.children.getD [])
        let bullet : Str :=
          match s.listType with
          | some .bullet => "• ".toList
          | some .ordered => numStr s.orderedCounter
          | none => []
        let s1 := if s.listType = some .ordered
                  then { s with orderedCounter := s.orderedCounter + 1 } else s
        ({ s1 with paragraphs := s1.paragraphs ++ [itemPara bullet runs] }, 4)
      else (s, 0)
    | none => (s, 0)
  else if t.type = "blockquote_open" then
    match rest[1]? with
    | some t2 =>
      if t2.type = "inline" then
        ({ s with paragraphs := s.paragraphs ++ [quotePara t2.content] }, 4)
      else (s, 0)
    | none => (s, 0)
  else if t.type = "code_block" ∨ t.type = "fence" then
    ({ s with paragraphs := s.paragraphs ++ [codePara t.content] }, 0)
  else if t.type = "hr" then
    ({ s with paragraphs := s.paragraphs ++ [hrPara] }, 0)
  else (s, 0)

/-- The token loop of processMarkdownToDocx, with explicit fuel (the loop runs at
most one iteration per token, so fuel = length is exact; see docxAux). -/
def docxGo : Nat → List Token → DocxState → DocxState
  | _, [], s => s
  | 0, _ :: _, s => s
  | f + 1, t :: rest, s =>
    let p := docxStep t rest s
    docxGo f (rest.drop p.2) p.1

/-- The processMarkdownToDocx token loop over a whole token stream. -/
def docxAux (ts : List Token) (s : DocxState) : DocxState :=
  docxGo ts.length ts s

/-- processMarkdownToDocx: parse the markdown (collaborator call) and run the
token loop from the initial state. -/
def processMarkdownToDocx (parse : Str → List Token) (markdown : Str) : List ParagraphT :=
  (docxAux (parse markdown) {}).paragraphs

/-! Block Renderer, drawing-surface backend:
renderMarkdown (index.util.ts lines 562-778). -/

/-- Render state of renderMarkdown: the pdf document plus inList / listType /
orderedListCounter. -/
structure PdfState where
  doc : PdfDoc := {}
  inList : Bool := false
  listType : Option ListType := none
  orderedListCounter : Nat := 1
  deriving DecidableEq, Repr

/-- Read the leading decimal digits (parseInt stops at the first non-digit). -/
def leadingNatAux (acc : Nat) : List Char → Nat
  | [] => acc
  | c :: rest => if isDigitChar c then leadingNatAux (acc * 10 + (c.toNat - 48)) rest else acc

/-- parseInt(s, 10): NaN (none) unless the string starts with a digit (after an
optional sign), else the value of the leading digit run. -/
def parseIntLeading : List Char → Option Int
  | [] => none
  | '-' :: c :: rest =>
    if isDigitChar c then some (-(leadingNatAux (c.toNat - 48) rest : Int)) else none
  | c :: rest =>
    if isDigitChar c then some (leadingNatAux (c.toNat - 48) rest : Int) else none

/-- tag.replace("h", ""): JS string replace removes the FIRST occurrence. -/
def removeFirstH : List Char → List Char
  | [] => []
  | c :: rest => if c = 'h' then rest else c :: removeFirstH rest

/-- parseInt(tag.replace("h", ""), 10) for heading tags of the shape "hN"
(an empty or non-numeric remainder is NaN, i.e. none). -/
def pdfLevelOfTag (tg : String) : Option Int :=
  parseIntLeading (removeFirstH tg.toList)

/-- The heading fontSize chain: level 1 -> h1, level 2 -> h2, anything else
(including NaN) -> h3. -/
def pdfHeadingSize (lvl : Option Int) : Nat :=
  if lvl = some 1 then TYPOGRAPHY.sizes.h1
  else if lvl = some 2 then TYPOGRAPHY.sizes.h2
  else TYPOGRAPHY.sizes.h3

/-- The forward lookahead of the list_item_open branch: scan for the next
inline token with a (non-null) children array, stopping at list_item_close;
returns those children. -/
def findItemInline : List Token → Option (List Token)
  | [] => none
  | t :: rest =>
    if t.type = "inline" ∧ t.children.isSome then some (t.children.getD [])
    else if t.type = "list_item_close" then none
    else findItemInline rest

/-- One iteration of the renderMarkdown token loop, at token t with the remaining
stream rest.  Returns the new state and the number of extra tokens of rest
consumed (the i++ skips), or the APIError the per-iteration catch re-raises.
The only intrinsic throw site is token.tag.replace on a heading_open with no
tag (a TypeError, re-raised by the catch as the typed PDFRenderingError).
NOTE (faithful to the source): the list_item_open branch renders the item's
inline content via lookahead but does NOT advance the index, so the following
paragraph_open / inline tokens are processed again. -/
def pdfStep (t : Token) (rest : List Token) (s : PdfState) :
    Except APIErrorT (PdfState × Nat) :=
  if t.type = "heading_open" then
    match t.tag with
    | none => .error pdfRenderingErrorMarkdown
    | some tg =>
      let fsz := pdfHeadingSize (pdfLevelOfTag tg)
      let d0 := s.doc.moveDown
      let d1 := ((d0.font TYPOGRAPHY.fonts.sansBold).fontSize fsz).fillColor
                  TYPOGRAPHY.colors.heading
      match rest.head? with
      | some t1 =>
        if t1.type = "inline" then
          let d2 := renderInlineTokens d1 (t1.children.getD [])
                      { align := some "left", lineGap := some 0 }
          let d3 := d2.moveDown
          match rest[1]? with
          | some t2 =>
            if t2.type = "heading_close" then .ok ({ s with doc := d3 }, 2)
            else .ok ({ s with doc := d3 }, 1)
          | none => .ok ({ s with doc := d3 }, 1)
        else
          let d3 := d1.moveDown
          if t1.type = "heading_close" then .ok ({ s with doc := d3 }, 1)
          else .ok ({ s with doc := d3 }, 0)
      | none => .ok ({ s with doc := d1.moveDown }, 0)
  else if t.type = "paragraph_open" then
    let d1 := ((s.doc.font TYPOGRAPHY.fonts.serif).fontSize TYPOGRAPHY.sizes.body).fillColor
                TYPOGRAPHY.colors.text
    match rest.head? with
    | some t1 =>
      if t1.type = "inline" then
        let d2 := renderInlineTokens d1 (t1.children.getD [])
                    { align := some "justify", lineGap := some 1 }
        let d3 := if s.inList then d2 else d2.moveDown
        match rest[1]? with
        | some t2 =>
          if t2.type = "paragraph_close" then .ok ({ s with doc := d3 }, 2)
          else .ok ({ s with doc := d3 }, 1)
        | none => .ok ({ s with doc := d3 }, 1)
      else
        let d3 := if s.inList then d1 else d1.moveDown
        if t1.type = "paragraph_close" then .ok ({ s with doc := d3 }, 1)
        else .ok ({ s with doc := d3 }, 0)
    | none => .ok ({ s with doc := if s.inList then d1 else d1.moveDown }, 0)
  else if t.type = "bullet_list_open" then
    .ok ({ s with inList := true, listType := some .bullet, doc := s.doc.moveDown }, 0)
  else if t.type = "bullet_list_close" then
    .ok ({ s with inList := false, listType := none, doc := s.doc.moveDown }, 0)
  else if t.type = "ordered_list_open" then
    .ok ({ s with inList := true, listType := some .ordered, orderedListCounter := 1,
                  doc := s.doc.moveDown }, 0)
  else if t.type = "ordered_list_close" then
    .ok ({ s with inList := false, listType := none, doc := s.doc.moveDown }, 0)
  else if t.type = "list_item_open" then
    let bullet : Str :=
      match s.listType with
      | some .bullet => "• ".toList
      | some .ordered => numStr s.orderedListCounter
      | none => []
    let s1 := if s.listType = some .ordered
              then { s with orderedListCounter := s.orderedListCounter + 1 } else s
    let d1 := ((s.doc.font TYPOGRAPHY.fonts.serif).fontSize TYPOGRAPHY.sizes.body).fillColor
                TYPOGRAPHY.colors.text
    let d2 := d1.text bullet true
    let d3 :=
      match findItemInline rest with
      | some cs => renderInlineTokens d2 cs { align := some "left", lineGap := some 2 }
      | none => d2
    .ok ({ s1 with doc := d3.moveDown }, 0)
  else if t.type = "code_block" ∨ t.type = "fence" then
    let d1 := s.doc.moveDown
    let d2 := ((d1.font "Courier").fontSize 9).fillColor TYPOGRAPHY.colors.text
    let d3 := d2.text t.content false
    let d4 := (d3.font TYPOGRAPHY.fonts.serif).fontSize TYPOGRAPHY.sizes.body
    .ok ({ s with doc := d4.moveDown }, 0)
  else if t.type = "hr" then
    .ok ({ s with doc := ((s.doc.moveDown).hline).moveDown }, 0)
  else .ok (s, 0)

/-- The renderMarkdown token loop, with explicit fuel (one iteration per token;
fuel = length is exact, see pdfAux). -/
def pdfGo : Nat → List Token → PdfState → Except APIErrorT PdfState
  | _, [], s => .ok s
  | 0, _ :: _, s => .ok s
  | f + 1, t :: rest, s =>
    match pdfStep t rest s with
    | .error e => .error e
    | .ok (s1, k) => pdfGo f (rest.drop k) s1

/-- The renderMarkdown token loop over a whole token stream. -/
def pdfAux (ts : List Token) (s : PdfState) : Except APIErrorT PdfState :=
  pdfGo ts.length ts s

/-- renderMarkdown: early return on empty / whitespace-only markdown, otherwise
parse (collaborator call) and run the token loop with fresh list state over the
supplied document. -/
def renderMarkdown (parse : Str → List Token) (markdown : Str) (doc : PdfDoc) :
    Except APIErrorT PdfDoc :=
  if markdown.all (·.isWhitespace) then .ok doc
  else
    match pdfAux (parse markdown) { doc := doc } with
    | .error e => .error e
    | .ok s => .ok s.doc

/-! Document Assembler (export.service.ts). -/

/-- A chapter as stored on the book: title and Markdown content string. -/
structure ChapterT where
  title : Str := []
  content : Str := []
  deriving Repr

/-- A book as the export services read it. -/
structure BookT where
  userId : Str := []
  title : Str := []
  subtitle : Option Str := none
  author : Str := []
  coverImageUrl : Option Str := none
  chapters : List ChapterT := []
  deriving Repr

/-- chapter.title || "Chapter N" (empty string is falsy). -/
def chapterDisplayTitle (idx : Nat) (ch : ChapterT) : Str :=
  if ch.title = [] then "Chapter ".toList ++ (Nat.repr (idx + 1)).toList else ch.title

/-- The chapter-title Paragraph of exportAsDocxService (lines 246-262). -/
def chapterTitlePara (idx : Nat) (ch : ChapterT) : ParagraphT :=
  { children := [{ text := chapterDisplayTitle idx ch, bold := true,
                   font := some DOCX_STYLES.fonts.heading,
                   size := some (DOCX_STYLES.sizes.chapterTitle * 2),
                   color := some "1a202c" }],
    spacingBefore := some DOCX_STYLES.spacing.chapterBefore,
    spacingAfter := some DOCX_STYLES.spacing.chapterAfter }

/-- The chapter loop of exportAsDocxService (lines 233-287): for each chapter, a
page break paragraph when index > 0, the chapter title, then the processed
markdown content.  (processMarkdownToDocx never throws by itself, so the
surrounding try/catch contributes nothing here; see the oracle variant below.) -/
def docxChaptersGo (parse : Str → List Token) (idx : Nat) :
    List ChapterT → List ParagraphT
  | [] => []
  | ch :: rest =>
    (if idx > 0 then [pageBreakPara] else []) ++
      [chapterTitlePara idx ch] ++
      processMarkdownToDocx parse ch.content ++
      docxChaptersGo parse (idx + 1) rest

/-- The paragraphs the docx chapter loop appends to the document sections. -/
def docxChapterSections (parse : Str → List Token) (chapters : List ChapterT) :
    List ParagraphT :=
  docxChaptersGo parse 0 chapters

/-- The chapter loop of exportAsPDFService (lines 476-514): for EVERY chapter
(including the first) doc.addPage(), then the chapter title, moveDown, then the
rendered markdown when the content is not empty/whitespace-only.  Any error from
a chapter render is caught and re-raised as the typed ContentProcessingError
carrying the field chapter. -/
def pdfChaptersGo (parse : Str → List Token) (idx : Nat) (chapters : List ChapterT)
    (doc : PdfDoc) : Except APIErrorT PdfDoc :=
  match chapters with
  | [] => .ok doc
  | ch :: rest =>
    let d1 := ((doc.addPage.font TYPOGRAPHY.fonts.sansBold).fontSize
                TYPOGRAPHY.sizes.chapterTitle).fillColor TYPOGRAPHY.colors.heading
    let d2 := (d1.text (chapterDisplayTitle idx ch) false).moveDown
    match (if ch.content.all (·.isWhitespace) then .ok d2
           else renderMarkdown parse ch.content d2) with
    | .error _ => .error contentProcessingErrorChapter
    | .ok d3 => pdfChaptersGo parse (idx + 1) rest d3

/-- HTTP response events of exportAsPDFService, in the order they are issued. -/
inductive ResEvent where
  | setHeader (name : String) (value : Str)
  | pipe
  | endCall
  deriving DecidableEq, Repr

/-- The Content-Disposition filename: the book title lower-cased with every
non-alphanumeric character replaced by an underscore. -/
def dispositionValue (title : Str) : Str :=
  "attachment; filename=".toList ++
    ((title.map Char.toLower).map fun ch => if ch.isAlphanum then ch else '_') ++
    ".pdf".toList

/-- The title page drawing of exportAsPDFService (lines 450-473). -/
def pdfTitlePage (d : PdfDoc) (book : BookT) : PdfDoc :=
  let d1 := ((((d.font TYPOGRAPHY.fonts.sansBold).fontSize TYPOGRAPHY.sizes.title).fillColor
               TYPOGRAPHY.colors.heading).text book.title false).moveDown
  let d2 :=
    match book.subtitle with
    | some st =>
      if st.all (·.isWhitespace) then d1
      else ((((d1.font TYPOGRAPHY.fonts.sans).fontSize TYPOGRAPHY.sizes.h2).fillColor
              TYPOGRAPHY.colors.text).text st false).moveDown
    | none => d1
  (((d2.font TYPOGRAPHY.fonts.sans).fontSize TYPOGRAPHY.sizes.author).fillColor
     TYPOGRAPHY.colors.text).text ("by ".toList ++ book.author) false

/-- exportAsPDFService (lines 334-518): validations, then response headers and
doc.pipe(res), then the cover-image fetch (coverOk is the collaborator fetch
outcome), the title page, the chapter loop, and doc.end().  Returns the response
events issued (in order) and the overall outcome. -/
def exportAsPDFServiceM (parse : Str → List Token) (bookId userId : Str)
    (found : Option BookT) (coverOk : Bool) : List ResEvent × Except APIErrorT Unit :=
  if bookId = [] then ([], .error invalidInputBookId)
  else
    match found with
    | none => ([], .error notFoundBook)
    | some book =>
      if book.userId ≠ userId then ([], .error forbiddenBook)
      else
        let ev : List ResEvent :=
          [.setHeader "Content-Type" "application/pdf".toList,
           .setHeader "Content-Disposition" (dispositionValue book.title),
           .pipe]
        let coverRes : Except APIErrorT PdfDoc :=
          match book.coverImageUrl with
          | none => .ok {}
          | some _ =>
            if coverOk then .ok (PdfDoc.addPage (PdfDoc.image {}))
            else .error imageProcessingErrorCover
        match coverRes with
        | .error e => (ev, .error e)
        | .ok d1 =>
          let d2 := pdfTitlePage d1 book
          match pdfChaptersGo parse 0 book.chapters d2 with
          | .error e => (ev, .error e)
          | .ok _ => (ev ++ [.endCall], .ok ())

/-! Oracle variant of the flow-document block renderer, for the failure-semantics
claim.  Inside the try block of processMarkdownToDocx the only operations that
can throw are the external docx library constructors; the oracle stands for the
new Paragraph(...) call and may fail arbitrarily.  The per-iteration catch
re-raises any such failure as the single typed ContentProcessingError. -/

/-- One iteration of the processMarkdownToDocx loop where the Paragraph
constructor is the given fallible oracle. -/
def docxStepE (oracle : ParagraphT → Except Unit ParagraphT) (t : Token)
    (rest : List Token) (s : DocxState) : Except Unit (DocxState × Nat) :=
  if t.type = "heading_open" then
    match rest.head? with
    | some t1 =>
      if t1.type = "inline" then
        let hs := docxHeadingStyle (levelOfTag t.tag)
        match oracle (headingPara hs.1 t1.content) with
        | .error u => .error u
        | .ok p => .ok ({ s with paragraphs := s.paragraphs ++ [p] }, 2)
      else .ok (s, 0)
    | none => .ok (s, 0)
  else if t.type = "paragraph_open" then
    match rest.head? with
    | some t1 =>
      if t1.type = "inline" ∧ t1.children.isSome then
        let runs := processInlineContent (t1.children.getD [])
        match oracle (paraBlock runs s.inList) with
        | .error u => .error u
        | .ok p => .ok ({ s with paragraphs := s.paragraphs ++ [p] }, 2)
      else .ok (s, 0)
    | none => .ok (s, 0)
  else if t.type = "bullet_list_open" then
    .ok ({ s with inList := true, listType := some .bullet }, 0)
  else if t.type = "bullet_list_close" then
    match oracle spacerPara with
    | .error u => .error u
    | .ok p =>
      .ok ({ s with inList := false, listType := none, paragraphs := s.paragraphs ++ [p] }, 0)
  else if t.type = "ordered_list_open" then
    .ok ({ s with inList := true, listType := some .ordered, orderedCounter := 1 }, 0)
  else if t.type = "ordered_list_close" then
    match oracle spacerPara with
    | .error u => .error u
    | .ok p =>
      .ok ({ s with inList := false, listType := none, paragraphs := s.paragraphs ++ [p] }, 0)
  else if t.type = "list_item_open" then
    match rest[1]? with
    | some t2 =>
      if t2.type = "inline" ∧ t2.children.isSome then
        let runs := processInlineContent (t2.children.getD [])
        let bullet : Str :=
          match s.listType with
          | some .bullet => "• ".toList
          | some .ordered => numStr s.orderedCounter
          | none => []
        let s1 := if s.listType = some .ordered
                  then { s with orderedCounter := s.orderedCounter + 1 } else s
        match oracle (itemPara bullet runs) with
        | .error u => .error u
        | .ok p => .ok ({ s1 with paragraphs := s1.paragraphs ++ [p] }, 4)
      else .ok (s, 0)
    | none => .ok (s, 0)
  else if t.type = "blockquote_open" then
    match rest[1]? with
    | some t2 =>
      if t2.type = "inline" then
        match oracle (quotePara t2.content) with
        | .error u => .error u
        | .ok p => .ok ({ s with paragraphs := s.paragraphs ++ [p] }, 4)
      else .ok (s, 0)
    | none => .ok (s, 0)
  else if t.type = "code_block" ∨ t.type = "fence" then
    match oracle (codePara t.content) with
    | .error u => .error u
    | .ok p => .ok ({ s with paragraphs := s.paragraphs ++ [p] }, 0)
  else if t.type = "hr" then
    match oracle hrPara with
    | .error u => .error u
    | .ok p => .ok ({ s with paragraphs := s.paragraphs ++ [p] }, 0)
  else .ok (s, 0)

/-- The processMarkdownToDocx loop with the fallible constructor oracle: the
per-iteration catch converts any raised error into the typed
ContentProcessingError, aborting the whole render. -/
def docxGoE (oracle : ParagraphT → Except Unit ParagraphT) :
    Nat → List Token → DocxState → Except APIErrorT DocxState
  | _, [], s => .ok s
  | 0, _ :: _, s => .ok s
  | f + 1, t :: rest, s =>
    match docxStepE oracle t rest s with
    | .error _ => .error contentProcessingErrorMarkdown
    | .ok (s1, k) => docxGoE oracle f (rest.drop k) s1

/-- The oracle-variant loop over a whole token stream. -/
def docxAuxE (oracle : ParagraphT → Except Unit ParagraphT) (ts : List Token)
    (s : DocxState) : Except APIErrorT DocxState :=
  docxGoE oracle ts.length ts s

/-! Text projections used by the inline-builder claims. -/

/-- Concatenated text of a run list, in emission order. -/
def runsText (runs : List TextRunT) : Str := (runs.map TextRunT.text).flatten

/-- Concatenated content of the text tokens of an inline sequence, in order. -/
def textTokensConcat (ts : List Token) : Str :=
  (ts.filterMap fun t => if t.type = "text" then some t.content else none).flatten

/-- Concatenated content of the text and code_inline tokens, in order. -/
def textCodeConcat (ts : List Token) : Str :=
  (ts.filterMap fun t =>
    if t.type = "text" ∨ t.type = "code_inline" then some t.content else none).flatten

/-- The text drawn by a pdf command (non-text commands draw nothing). -/
def textOfCmd : PdfCmd → Str
  | .textDraw s _ _ _ => s
  | _ => []

/-- Concatenated text of a pdf command trace. -/
def emittedText (cmds : List PdfCmd) : Str := (cmds.map textOfCmd).flatten

/-- The texts of all text draws of a command trace (one entry per draw). -/
def cmdTexts (cmds : List PdfCmd) : List Str :=
  cmds.filterMap fun c => match c with | .textDraw s _ _ _ => some s | _ => none

/-- Content of the code_inline tokens of an inline sequence, in order. -/
def codeContents (ts : List Token) : List Str :=
  ts.filterMap fun t => if t.type = "code_inline" then some t.content else none

/-- The texts drawn in the Courier font, in order. -/
def courierTexts (cmds : List PdfCmd) : List Str :=
  cmds.filterMap fun c =>
    match c with
    | .textDraw s f _ _ => if f = "Courier" then some s else none
    | _ => none

/-- C1 counterexample input: a text token followed by an inline-code token. -/
def c1CexTokens : List Token := [textTok ['a'], codeInlineTok ['x']]

/-! Render-context invariant (both block renderers). -/

/-- The spec invariant on the list context: listType is none iff inList is false. -/
def listInvariant (inList : Bool) (listType : Option ListType) : Prop :=
  listType = none ↔ inList = false

/-- Is the command an addPage call. -/
def isAddPage : PdfCmd → Bool
  | .addPage => true
  | _ => false

/-- Number of addPage calls in a command trace. -/
def countAddPage (cmds : List PdfCmd) : Nat := cmds.countP isAddPage

/-- d extends d0: d's trace is d0's followed by new commands containing no
addPage call (the block renderer never inserts a page break). -/
def DocExtends (d0 d : PdfDoc) : Prop :=
  ∃ δ, d.cmds = d0.cmds ++ δ ∧ countAddPage δ = 0

set_option maxHeartbeats 1000000 in

/-- C5 counterexample input: the standard blockquote token shape around one
paragraph with the text "quoted". -/
def c5Tokens : List Token :=
  [blockTok "blockquote_open", blockTok "paragraph_open",
   inlineTok "quoted".toList [textTok "quoted".toList],
   blockTok "paragraph_close", blockTok "blockquote_close"]

/-! Heading-level fallback in the flow-document backend. -/

/-- C6 counterexample input: a level-4 heading in the standard token shape. -/
def c6Tokens : List Token :=
  [tagTok "heading_open" "h4", inlineTok "Title".toList [], blockTok "heading_close"]

/-! Ordered-list numbering (both backends).  The spec's parser contract (§4.1)
guarantees the standard item shape list_item_open, paragraph_open, inline
(with children), paragraph_close, list_item_close; the item generators below
quantify over arbitrary inline children, i.e. arbitrary content inside items. -/

/-- A standard-shaped list item with the given inline children. -/
def itemTokens (cs : List Token) : List Token :=
  [blockTok "list_item_open", blockTok "paragraph_open", inlineTok [] cs,
   blockTok "paragraph_close", blockTok "list_item_close"]

/-- A non-nested ordered list of standard-shaped items. -/
def orderedListTokens (items : List (List Token)) : List Token :=
  blockTok "ordered_list_open" ::
    ((items.map itemTokens).flatten ++ [blockTok "ordered_list_close"])

/-- The docx paragraph emitted for the item numbered n with children cs. -/
def itemParaFor (n : Nat) (cs : List Token) : ParagraphT :=
  itemPara (numStr n) (processInlineContent cs)

/-- The docx paragraphs of a run of items numbered from c. -/
def docxItemParas (c : Nat) : List (List Token) → List ParagraphT
  | [] => []
  | cs :: r => itemParaFor c cs :: docxItemParas (c + 1) r

/-- The numeral prefixes c., c+1., ..., as strings. -/
def bulletNums (c : Nat) : Nat → List Str
  | 0 => []
  | n + 1 => numStr c :: bulletNums (c + 1) n

/-- The leading bullet-run texts of the item paragraphs in a paragraph list
(the bullet run is the only leading run carrying no font size). -/
def docxBullets (ps : List ParagraphT) : List Str :=
  ps.filterMap fun p =>
    match p.children with
    | r :: _ => if r.size = none then some r.text else none
    | [] => none

/-- The item-bullet draws of a pdf command trace: text draws issued with
continued: true in a non-monospace font (bullets are drawn in the serif body
font with continued: true; the only other continued draws are inline-code
draws, in Courier). -/
def pdfBulletTexts (cmds : List PdfCmd) : List Str :=
  cmds.filterMap fun c =>
    match c with
    | .textDraw s f _ true => if f = "Courier" then none else some s
    | _ => none

/-- Font/size/color setting before a body draw, as the item and paragraph
branches of renderMarkdown perform it. -/
def pdfBodyFonts (doc : PdfDoc) : PdfDoc :=
  ((doc.font TYPOGRAPHY.fonts.serif).fontSize TYPOGRAPHY.sizes.body).fillColor
    TYPOGRAPHY.colors.text

/-! List-item text duplication in the drawing-surface backend. -/

/-- C2 failing input: the token stream of the markdown "- hello" in the
standard shape. -/
def c2Tokens : List Token :=
  [blockTok "bullet_list_open", blockTok "list_item_open", blockTok "paragraph_open",
   inlineTok "hello".toList [textTok "hello".toList], blockTok "paragraph_close",
   blockTok "list_item_close", blockTok "bullet_list_close"]

/-! Per-chapter page breaks in the Document Assembler. -/

/-- Number of page-break paragraphs (pageBreakBefore: true). -/
def countPageBreaks (ps : List ParagraphT) : Nat := ps.countP (·.pageBreakBefore)

/-- C4 counterexample input: a two-chapter book with empty contents. -/
def c4Chapters : List ChapterT := [⟨"A".toList, []⟩, ⟨"B".toList, []⟩]

/-! Response-stream attachment order in exportAsPDFService. -/

/-- C10 witness input: an owned book with a cover url and a failing fetch. -/
def c10Book : BookT :=
  { userId := ['u'], title := ['T'], author := ['A'],
    coverImageUrl := some "url".toList, chapters := [] }

theorem dropLengthLe {α : Type} (k : Nat) (l : List α) : (l.drop k).length ≤ l.length := by
  simp [List.length_drop]

theorem docxGo_nil (f : Nat) (s : DocxState) : docxGo f [] s = s := by
  cases f <;> rfl

theorem docxGo_fuel_irrelevant (f g : Nat) (ts : List Token) (s : DocxState)
    (hf : ts.length ≤ f) (hg : ts.length ≤ g) : docxGo f ts s = docxGo g ts s := by
  induction f generalizing g ts s with
  | zero =>
    cases ts with
    | nil => simp [docxGo_nil]
    | cons t rest => simp at hf
  | succ f ih =>
    cases ts with
    | nil => simp [docxGo_nil]
    | cons t rest =>
      cases g with
      | zero => simp at hg
      | succ g =>
        simp only [docxGo]
        apply ih
        · exact le_trans (dropLengthLe _ _) (by simpa using hf)
        · exact le_trans (dropLengthLe _ _) (by simpa using hg)

theorem docxAux_nil (s : DocxState) : docxAux [] s = s := rfl

/-- Unfolding lemma: one loop iteration consumes the head token plus the skip
count returned by docxStep. -/
theorem docxAux_cons (t : Token) (rest : List Token) (s : DocxState) :
    docxAux (t :: rest) s =
      docxAux (rest.drop (docxStep t rest s).2) (docxStep t rest s).1 := by
  show docxGo (rest.length + 1) (t :: rest) s = _
  simp only [docxGo]
  exact docxGo_fuel_irrelevant _ _ _ _ (dropLengthLe _ _) le_rfl

theorem pdfGo_nil (f : Nat) (s : PdfState) : pdfGo f [] s = .ok s := by
  cases f <;> rfl

theorem pdfGo_fuel_irrelevant (f g : Nat) (ts : List Token) (s : PdfState)
    (hf : ts.length ≤ f) (hg : ts.length ≤ g) : pdfGo f ts s = pdfGo g ts s := by
  induction f generalizing g ts s with
  | zero =>
    cases ts with
    | nil => simp [pdfGo_nil]
    | cons t rest => simp at hf
  | succ f ih =>
    cases ts with
    | nil => simp [pdfGo_nil]
    | cons t rest =>
      cases g with
      | zero => simp at hg
      | succ g =>
        simp only [pdfGo]
        cases pdfStep t rest s with
        | error e => rfl
        | ok p =>
          apply ih
          · exact le_trans (dropLengthLe _ _) (by simpa using hf)
          · exact le_trans (dropLengthLe _ _) (by simpa using hg)

theorem pdfAux_nil (s : PdfState) : pdfAux [] s = .ok s := rfl

/-- Unfolding lemma: one loop iteration either re-raises the typed error or
consumes the head token plus the skip count returned by pdfStep. -/
theorem pdfAux_cons (t : Token) (rest : List Token) (s : PdfState) :
    pdfAux (t :: rest) s =
      match pdfStep t rest s with
      | .error e => .error e
      | .ok (s1, k) => pdfAux (rest.drop k) s1 := by
  show pdfGo (rest.length + 1) (t :: rest) s = _
  simp only [pdfGo]
  cases pdfStep t rest s with
  | error e => rfl
  | ok p =>
    exact pdfGo_fuel_irrelevant _ _ _ _ (dropLengthLe _ _) le_rfl

theorem runsText_append (a b : List TextRunT) :
    runsText (a ++ b) = runsText a ++ runsText b := by
  simp [runsText]

theorem emittedText_append (a b : List PdfCmd) :
    emittedText (a ++ b) = emittedText a ++ emittedText b := by
  simp [emittedText]

theorem courierTexts_append (a b : List PdfCmd) :
    courierTexts (a ++ b) = courierTexts a ++ courierTexts b := by
  simp [courierTexts]

theorem cmdTexts_append (a b : List PdfCmd) :
    cmdTexts (a ++ b) = cmdTexts a ++ cmdTexts b := by
  simp [cmdTexts]

/-- flushText preserves total text: emitted runs text plus pending buffer. -/
theorem flushText_text (st : InlineState) :
    runsText (flushText st).runs ++ (flushText st).buffer =
      runsText st.runs ++ st.buffer := by
  unfold flushText
  split
  · rfl
  · simp [runsText_append, runsText, bodyRun]

/-- The processInlineContent loop preserves total text. -/
theorem processInlineGo_text (cs : List Token) :
    ∀ st : InlineState,
      runsText (processInlineGo st cs).runs ++ (processInlineGo st cs).buffer =
        runsText st.runs ++ st.buffer ++ textTokensConcat cs := by
  induction cs with
  | nil => intro st; simp [processInlineGo, textTokensConcat]
  | cons t rest ih =>
    intro st
    simp only [processInlineGo]
    split_ifs with h1 h2 h3 h4 h5
    · rw [ih]
      have := flushText_text st
      simp only [textTokensConcat, List.filterMap_cons, h1]
      simp only [runsText] at this ⊢
      simp_all
    · rw [ih]
      have := flushText_text st
      simp only [textTokensConcat, List.filterMap_cons, h2]
      simp_all
    · rw [ih]
      have := flushText_text st
      simp only [textTokensConcat, List.filterMap_cons, h3]
      simp_all
    · rw [ih]
      have := flushText_text st
      simp only [textTokensConcat, List.filterMap_cons, h4]
      simp_all
    · rw [ih]
      simp only [textTokensConcat, List.filterMap_cons, h5]
      simp_all [List.append_assoc]
    · rw [ih]
      simp only [textTokensConcat, List.filterMap_cons]
      simp_all

theorem flushDoc_curFont (d : PdfDoc) (f : String) (buf : Str) :
    (flushDoc d f buf).curFont = if buf ≠ [] then f else d.curFont := by
  unfold flushDoc
  split_ifs <;> simp [PdfDoc.font, PdfDoc.text]

theorem emittedText_flushDoc (d : PdfDoc) (f : String) (buf : Str) :
    emittedText (flushDoc d f buf).cmds = emittedText d.cmds ++ buf := by
  unfold flushDoc
  split_ifs with h
  · simp [PdfDoc.text, PdfDoc.font, emittedText_append, emittedText, textOfCmd]
  · simp only [ne_eq, Decidable.not_not] at h
    simp [h]

theorem courierTexts_flushDoc (d : PdfDoc) (f : String) (buf : Str) (hf : f ≠ "Courier") :
    courierTexts (flushDoc d f buf).cmds = courierTexts d.cmds := by
  unfold flushDoc
  split_ifs
  · simp [PdfDoc.text, PdfDoc.font, courierTexts_append, courierTexts, hf]
  · rfl

/-- The renderInlineTokens loop emits exactly the pending buffer followed by the
text and code_inline contents of the remaining tokens. -/
theorem renderInlineGo_text (cs : List Token) :
    ∀ (d : PdfDoc) (f : String) (buf : Str),
      emittedText (renderInlineGo d f buf cs).cmds =
        emittedText d.cmds ++ buf ++ textCodeConcat cs := by
  induction cs with
  | nil =>
    intro d f buf
    simp only [renderInlineGo]
    split
    · simp [PdfDoc.text, PdfDoc.font, emittedText_append, emittedText, textOfCmd,
            textCodeConcat]
    · rename_i hbuf
      simp only [ne_eq, Decidable.not_not] at hbuf
      subst hbuf
      simp [PdfDoc.text, emittedText_append, emittedText, textOfCmd, textCodeConcat]
  | cons t rest ih =>
    intro d f buf
    simp only [renderInlineGo]
    split_ifs with h1 h2 h3 h4 h5 h6
    · rw [ih]
      simp only [textCodeConcat, List.filterMap_cons, h1]
      simp [List.append_assoc]
    · rw [ih, emittedText_flushDoc]
      simp [textCodeConcat, List.filterMap_cons, h2]
    · rw [ih, emittedText_flushDoc]
      simp [textCodeConcat, List.filterMap_cons, h3]
    · rw [ih, emittedText_flushDoc]
      simp [textCodeConcat, List.filterMap_cons, h4]
    · rw [ih, emittedText_flushDoc]
      simp [textCodeConcat, List.filterMap_cons, h5]
    · rw [ih]
      simp only [PdfDoc.font, PdfDoc.text]
      rw [emittedText_append, emittedText_flushDoc]
      simp [emittedText, textOfCmd, textCodeConcat, List.filterMap_cons, h6,
            List.append_assoc]
    · rw [ih]
      simp only [textCodeConcat, List.filterMap_cons]
      have : ¬(t.type = "text" ∨ t.type = "code_inline") := by
        intro hc
        cases hc with
        | inl hc => exact h1 hc
        | inr hc => exact h6 hc
      simp [this]

/-- C1: FALSE as stated.  In the drawing-surface variant the code_inline content
is also emitted as a run, so the concatenation of all emitted run texts ("ax")
is not the concatenation of the text tokens ("a") with only leading/trailing
whitespace-only runs dropped. -/
theorem C1_counterexample :
    ¬ ∃ pre post : Str, pre.all (·.isWhitespace) ∧ post.all (·.isWhitespace) ∧
        textTokensConcat c1CexTokens =
          pre ++ emittedText (renderInlineTokens {} c1CexTokens {}).cmds ++ post := by
  rintro ⟨pre, post, -, -, h⟩
  have h1 : textTokensConcat c1CexTokens = ['a'] := rfl
  have h2 : emittedText (renderInlineTokens {} c1CexTokens {}).cmds = ['a', 'x'] := rfl
  rw [h1, h2] at h
  have := congrArg List.length h
  simp [List.length_append] at this
  omega

/-- C1 (amended): the flow-document builder preserves the concatenated text of
the text tokens exactly, except that a single trailing whitespace-only buffered
segment may be dropped (never a leading or interior one); the drawing-surface
builder drops nothing and emits exactly the concatenation of the text AND
code_inline token contents, in input order. -/
theorem C1_inline_text_preservation :
    (∀ cs : List Token, ∃ post : Str, post.all (·.isWhitespace) ∧
        textTokensConcat cs = runsText (processInlineContent cs) ++ post) ∧
    (∀ (d : PdfDoc) (cs : List Token) (o : InlineRenderOptions),
        emittedText (renderInlineTokens d cs o).cmds =
          emittedText d.cmds ++ textCodeConcat cs) := by
  constructor
  · intro cs
    have hinv := processInlineGo_text cs {}
    simp [runsText] at hinv
    by_cases hws : ((processInlineGo {} cs).buffer.all (·.isWhitespace)) = true
    · refine ⟨(processInlineGo {} cs).buffer, hws, ?_⟩
      have : flushText (processInlineGo {} cs) = processInlineGo {} cs := by
        unfold flushText; simp [hws]
      rw [processInlineContent, this]
      simp [runsText]
      exact hinv.symm
    · refine ⟨[], by simp, ?_⟩
      rw [processInlineContent]
      unfold flushText
      simp [hws]
      rw [runsText_append]
      simp [runsText, bodyRun]
      exact hinv.symm
  · intro d cs o
    cases cs with
    | nil => simp [renderInlineTokens, textCodeConcat]
    | cons t rest =>
      show emittedText (renderInlineGo d TYPOGRAPHY.fonts.serif [] (t :: rest)).cmds = _
      rw [renderInlineGo_text]
      simp

/-- Removing the code_inline tokens does not change the processInlineContent
loop at all: they hit the default no-op case. -/
theorem processInlineGo_filter_code (cs : List Token) :
    ∀ st : InlineState,
      processInlineGo st (cs.filter fun t => t.type != "code_inline") =
        processInlineGo st cs := by
  induction cs with
  | nil => intro st; rfl
  | cons t rest ih =>
    intro st
    by_cases hc : t.type = "code_inline"
    · have hdrop : (t :: rest).filter (fun t => t.type != "code_inline") =
          rest.filter (fun t => t.type != "code_inline") := by
        simp [List.filter_cons, hc]
      rw [hdrop, ih]
      conv_rhs => simp only [processInlineGo]
      have : ∀ p : Prop, ∀ pp : Decidable p, (t.type = "strong_open") = False ∧
          (t.type = "strong_close") = False ∧ (t.type = "em_open") = False ∧
          (t.type = "em_close") = False ∧ (t.type = "text") = False := by
        intro _ _
        refine ⟨?_, ?_, ?_, ?_, ?_⟩ <;> (simp [hc])
      simp [hc]
    · have hkeep : (t :: rest).filter (fun t => t.type != "code_inline") =
          t :: rest.filter (fun t => t.type != "code_inline") := by
        simp [List.filter_cons, hc]
      rw [hkeep]
      simp only [processInlineGo]
      split_ifs <;> rw [ih]

/-- After a flush with a non-Courier current font against a non-Courier device
font, the device font is still not Courier. -/
theorem flushDoc_curFont_ne (d : PdfDoc) (f : String) (buf : Str) (hf : f ≠ "Courier")
    (hd : d.curFont ≠ "Courier") : (flushDoc d f buf).curFont ≠ "Courier" := by
  rw [flushDoc_curFont]
  split_ifs
  · exact hf
  · exact hd

/-- The renderInlineTokens loop: the Courier-font draws are exactly the
code_inline contents, provided neither the loop font nor the ambient device
font is Courier (the flush fonts are the three serif faces, and code_inline
restores the prior font after its draw). -/
theorem renderInlineGo_courier (cs : List Token) :
    ∀ (d : PdfDoc) (f : String) (buf : Str), f ≠ "Courier" → d.curFont ≠ "Courier" →
      courierTexts (renderInlineGo d f buf cs).cmds =
        courierTexts d.cmds ++ codeContents cs := by
  induction cs with
  | nil =>
    intro d f buf hf hd
    simp only [renderInlineGo]
    split
    · simp [PdfDoc.text, PdfDoc.font, courierTexts_append, courierTexts, codeContents, hf]
    · simp [PdfDoc.text, courierTexts_append, courierTexts, codeContents, hd]
  | cons t rest ih =>
    intro d f buf hf hd
    simp only [renderInlineGo]
    split_ifs with h1 h2 h3 h4 h5 h6
    · rw [ih _ _ _ hf hd]
      simp [codeContents, List.filterMap_cons, h1]
    · rw [ih _ _ _ (by decide) (flushDoc_curFont_ne d f buf hf hd),
          courierTexts_flushDoc d f buf hf]
      simp [codeContents, List.filterMap_cons, h2]
    · rw [ih _ _ _ (by decide) (flushDoc_curFont_ne d f buf hf hd),
          courierTexts_flushDoc d f buf hf]
      simp [codeContents, List.filterMap_cons, h3]
    · rw [ih _ _ _ (by decide) (flushDoc_curFont_ne d f buf hf hd),
          courierTexts_flushDoc d f buf hf]
      simp [codeContents, List.filterMap_cons, h4]
    · rw [ih _ _ _ (by decide) (flushDoc_curFont_ne d f buf hf hd),
          courierTexts_flushDoc d f buf hf]
      simp [codeContents, List.filterMap_cons, h5]
    · rw [ih _ _ _ hf (by simp [PdfDoc.font, PdfDoc.text, hf])]
      simp only [PdfDoc.font, PdfDoc.text, courierTexts_append,
                 courierTexts_flushDoc d f buf hf, codeContents, List.filterMap_cons, h6]
      simp [courierTexts]
    · rw [ih _ _ _ hf hd]
      simp only [codeContents, List.filterMap_cons]
      simp [h6]

/-- C9: the flow-document inline builder has no case for code_inline tokens, so
their content produces no run (removing them changes nothing); the
drawing-surface builder emits each code_inline content as a monospace (Courier)
run, in order. -/
theorem C9_code_inline_asymmetry :
    (∀ cs : List Token,
        processInlineContent (cs.filter fun t => t.type != "code_inline") =
          processInlineContent cs) ∧
    (∀ (d : PdfDoc) (cs : List Token) (o : InlineRenderOptions),
        d.curFont ≠ "Courier" →
          courierTexts (renderInlineTokens d cs o).cmds =
            courierTexts d.cmds ++ codeContents cs) := by
  constructor
  · intro cs
    unfold processInlineContent
    rw [processInlineGo_filter_code]
  · intro d cs o hd
    cases cs with
    | nil => simp [renderInlineTokens, codeContents]
    | cons t rest =>
      show courierTexts (renderInlineGo d TYPOGRAPHY.fonts.serif [] (t :: rest)).cmds = _
      rw [renderInlineGo_courier _ _ _ _ (by decide) hd]

/-- C9 witness: the drawing-surface conjunct applied at a concrete document and
a concrete code_inline token. -/
theorem C9_witness :
    courierTexts (renderInlineTokens {} [codeInlineTok ['x']] {}).cmds =
      courierTexts (PdfDoc.cmds {}) ++ codeContents [codeInlineTok ['x']] :=
  C9_code_inline_asymmetry.2 {} [codeInlineTok ['x']] {} (by decide)

theorem docxStep_heading (t : Token) (rest : List Token) (s : DocxState)
    (hty : t.type = "heading_open") :
    docxStep t rest s =
      (match rest.head? with
       | some t1 =>
         if t1.type = "inline" then
           ({ s with paragraphs :=
                s.paragraphs ++ [headingPara (docxHeadingStyle (levelOfTag t.tag)).1
                                    t1.content] }, 2)
         else (s, 0)
       | none => (s, 0)) := by
  simp [docxStep, hty]

theorem docxStep_paragraph (t : Token) (rest : List Token) (s : DocxState)
    (hty : t.type = "paragraph_open") :
    docxStep t rest s =
      (match rest.head? with
       | some t1 =>
         if t1.type = "inline" ∧ t1.children.isSome then
           ({ s with paragraphs :=
                s.paragraphs ++ [paraBlock (processInlineContent (t1.children.getD []))
                                    s.inList] }, 2)
         else (s, 0)
       | none => (s, 0)) := by
  simp [docxStep, hty]

theorem docxStep_bulletOpen (t : Token) (rest : List Token) (s : DocxState)
    (hty : t.type = "bullet_list_open") :
    docxStep t rest s = ({ s with inList := true, listType := some .bullet }, 0) := by
  simp [docxStep, hty]

theorem docxStep_bulletClose (t : Token) (rest : List Token) (s : DocxState)
    (hty : t.type = "bullet_list_close") :
    docxStep t rest s =
      ({ s with inList := false, listType := none,
                paragraphs := s.paragraphs ++ [spacerPara] }, 0) := by
  simp [docxStep, hty]

theorem docxStep_orderedOpen (t : Token) (rest : List Token) (s : DocxState)
    (hty : t.type = "ordered_list_open") :
    docxStep t rest s =
      ({ s with inList := true, listType := some .ordered, orderedCounter := 1 }, 0) := by
  simp [docxStep, hty]

theorem docxStep_orderedClose (t : Token) (rest : List Token) (s : DocxState)
    (hty : t.type = "ordered_list_close") :
    docxStep t rest s =
      ({ s with inList := false, listType := none,
                paragraphs := s.paragraphs ++ [spacerPara] }, 0) := by
  simp [docxStep, hty]

theorem docxStep_item (t : Token) (rest : List Token) (s : DocxState)
    (hty : t.type = "list_item_open") :
    docxStep t rest s =
      (match rest[1]? with
       | some t2 =>
         if t2.type = "inline" ∧ t2.children.isSome then
           let runs := processInlineContent (t2.children.getD [])
           let bullet : Str :=
             match s.listType with
             | some .bullet => "• ".toList
             | some .ordered => numStr s.orderedCounter
             | none => []
           let s1 := if s.listType = some .ordered
                     then { s with orderedCounter := s.orderedCounter + 1 } else s
           ({ s1 with paragraphs := s1.paragraphs ++ [itemPara bullet runs] }, 4)
         else (s, 0)
       | none => (s, 0)) := by
  simp [docxStep, hty]

theorem docxStep_blockquote (t : Token) (rest : List Token) (s : DocxState)
    (hty : t.type = "blockquote_open") :
    docxStep t rest s =
      (match rest[1]? with
       | some t2 =>
         if t2.type = "inline" then
           ({ s with paragraphs := s.paragraphs ++ [quotePara t2.content] }, 4)
         else (s, 0)
       | none => (s, 0)) := by
  simp [docxStep, hty]

theorem docxStep_code (t : Token) (rest : List Token) (s : DocxState)
    (hty : t.type = "code_block" ∨ t.type = "fence") :
    docxStep t rest s =
      ({ s with paragraphs := s.paragraphs ++ [codePara t.content] }, 0) := by
  cases hty with
  | inl hty => simp [docxStep, hty]
  | inr hty => simp [docxStep, hty]

theorem docxStep_hr (t : Token) (rest : List Token) (s : DocxState)
    (hty : t.type = "hr") :
    docxStep t rest s = ({ s with paragraphs := s.paragraphs ++ [hrPara] }, 0) := by
  simp [docxStep, hty]

theorem docxStep_other (t : Token) (rest : List Token) (s : DocxState)
    (h1 : t.type ≠ "heading_open") (h2 : t.type ≠ "paragraph_open")
    (h3 : t.type ≠ "bullet_list_open") (h4 : t.type ≠ "bullet_list_close")
    (h5 : t.type ≠ "ordered_list_open") (h6 : t.type ≠ "ordered_list_close")
    (h7 : t.type ≠ "list_item_open") (h8 : t.type ≠ "blockquote_open")
    (h9 : t.type ≠ "code_block") (h10 : t.type ≠ "fence") (h11 : t.type ≠ "hr") :
    docxStep t rest s = (s, 0) := by
  simp [docxStep, h1, h2, h3, h4, h5, h6, h7, h8, h9, h10, h11]

/-- Every docx loop iteration preserves the list invariant: the only branches
that touch inList / listType set both together. -/
theorem docxStep_invariant (t : Token) (rest : List Token) (s : DocxState)
    (h : listInvariant s.inList s.listType) :
    listInvariant (docxStep t rest s).1.inList (docxStep t rest s).1.listType := by
  by_cases h1 : t.type = "heading_open"
  · rw [docxStep_heading t rest s h1]
    cases rest.head? with
    | none => exact h
    | some t1 => dsimp only; split_ifs <;> exact h
  by_cases h2 : t.type = "paragraph_open"
  · rw [docxStep_paragraph t rest s h2]
    cases rest.head? with
    | none => exact h
    | some t1 => dsimp only; split_ifs <;> exact h
  by_cases h3 : t.type = "bullet_list_open"
  · rw [docxStep_bulletOpen t rest s h3]; simp [listInvariant]
  by_cases h4 : t.type = "bullet_list_close"
  · rw [docxStep_bulletClose t rest s h4]; simp [listInvariant]
  by_cases h5 : t.type = "ordered_list_open"
  · rw [docxStep_orderedOpen t rest s h5]; simp [listInvariant]
  by_cases h6 : t.type = "ordered_list_close"
  · rw [docxStep_orderedClose t rest s h6]; simp [listInvariant]
  by_cases h7 : t.type = "list_item_open"
  · rw [docxStep_item t rest s h7]
    cases rest[1]? with
    | none => exact h
    | some t2 =>
      dsimp only
      split_ifs with hc hord
      · simpa [listInvariant] using h
      · exact h
      · exact h
  by_cases h8 : t.type = "blockquote_open"
  · rw [docxStep_blockquote t rest s h8]
    cases rest[1]? with
    | none => exact h
    | some t2 => dsimp only; split_ifs <;> exact h
  by_cases h9 : t.type = "code_block"
  · rw [docxStep_code t rest s (Or.inl h9)]; exact h
  by_cases h10 : t.type = "fence"
  · rw [docxStep_code t rest s (Or.inr h10)]; exact h
  by_cases h11 : t.type = "hr"
  · rw [docxStep_hr t rest s h11]; exact h
  rw [docxStep_other t rest s h1 h2 h3 h4 h5 h6 h7 h8 h9 h10 h11]
  exact h

theorem docExtends_refl (d : PdfDoc) : DocExtends d d := ⟨[], by simp, rfl⟩

theorem docExtends_font {d0 d : PdfDoc} {f : String} (h : DocExtends d0 d) :
    DocExtends d0 (d.font f) := h

theorem docExtends_fontSize {d0 d : PdfDoc} {n : Nat} (h : DocExtends d0 d) :
    DocExtends d0 (d.fontSize n) := h

theorem docExtends_fillColor {d0 d : PdfDoc} {c : String} (h : DocExtends d0 d) :
    DocExtends d0 (d.fillColor c) := h

theorem docExtends_text {d0 d : PdfDoc} {s : Str} {cont : Bool} (h : DocExtends d0 d) :
    DocExtends d0 (d.text s cont) := by
  obtain ⟨δ, hc, ha⟩ := h
  refine ⟨δ ++ [.textDraw s d.curFont d.curSize cont], ?_, ?_⟩
  · simp [PdfDoc.text, hc]
  · simp [countAddPage, List.countP_append, isAddPage] at ha ⊢
    exact ha

theorem docExtends_moveDown {d0 d : PdfDoc} (h : DocExtends d0 d) :
    DocExtends d0 d.moveDown := by
  obtain ⟨δ, hc, ha⟩ := h
  refine ⟨δ ++ [.moveDown], ?_, ?_⟩
  · simp [PdfDoc.moveDown, hc]
  · simp [countAddPage, List.countP_append, isAddPage] at ha ⊢
    exact ha

theorem docExtends_hline {d0 d : PdfDoc} (h : DocExtends d0 d) :
    DocExtends d0 d.hline := by
  obtain ⟨δ, hc, ha⟩ := h
  refine ⟨δ ++ [.hline], ?_, ?_⟩
  · simp [PdfDoc.hline, hc]
  · simp [countAddPage, List.countP_append, isAddPage] at ha ⊢
    exact ha

theorem docExtends_flush {d0 d : PdfDoc} {f : String} {buf : Str} (h : DocExtends d0 d) :
    DocExtends d0 (flushDoc d f buf) := by
  unfold flushDoc
  split_ifs
  · exact docExtends_text (docExtends_font h)
  · exact h

theorem docExtends_inlineGo (cs : List Token) :
    ∀ {d0 d : PdfDoc} (f : String) (buf : Str), DocExtends d0 d →
      DocExtends d0 (renderInlineGo d f buf cs) := by
  induction cs with
  | nil =>
    intro d0 d f buf h
    simp only [renderInlineGo]
    split
    · exact docExtends_text (docExtends_font h)
    · exact docExtends_text h
  | cons t rest ih =>
    intro d0 d f buf h
    simp only [renderInlineGo]
    split_ifs
    · exact ih _ _ h
    · exact ih _ _ (docExtends_flush h)
    · exact ih _ _ (docExtends_flush h)
    · exact ih _ _ (docExtends_flush h)
    · exact ih _ _ (docExtends_flush h)
    · exact ih _ _ (docExtends_font (docExtends_text
        (docExtends_font (docExtends_flush h))))
    · exact ih _ _ h

theorem docExtends_inline {d0 d : PdfDoc} {cs : List Token} {o : InlineRenderOptions}
    (h : DocExtends d0 d) : DocExtends d0 (renderInlineTokens d cs o) := by
  unfold renderInlineTokens
  split
  · exact h
  · exact docExtends_inlineGo _ _ _ h

/-- Case analysis of one pdf loop iteration: it either re-raises the typed
PDFRenderingError (only from a heading_open with no tag), or succeeds with a
document that only gained non-addPage commands and a list context that
respects the invariant. -/
theorem pdfStep_spec (t : Token) (rest : List Token) (s : PdfState) :
    pdfStep t rest s = .error pdfRenderingErrorMarkdown ∨
    ∃ s1 k, pdfStep t rest s = .ok (s1, k) ∧ DocExtends s.doc s1.doc ∧
      (listInvariant s.inList s.listType → listInvariant s1.inList s1.listType) := by
  by_cases h1 : t.type = "heading_open"
  · simp only [pdfStep]
    rw [if_pos h1]
    cases htag : t.tag with
    | none => exact Or.inl rfl
    | some tg =>
      cases hh : rest.head? with
      | none =>
        refine Or.inr ⟨_, _, rfl, ?_, fun hi => hi⟩
        dsimp only
        repeat
          first
          | exact docExtends_refl _
          | apply docExtends_moveDown
          | apply docExtends_inline
          | apply docExtends_text
          | apply docExtends_fillColor
          | apply docExtends_fontSize
          | apply docExtends_font
      | some t1 =>
        dsimp only
        split_ifs with hin hcl
        · cases hh2 : rest[1]? with
          | none =>
            refine Or.inr ⟨_, _, rfl, ?_, fun hi => hi⟩
            dsimp only
            repeat
              first
              | exact docExtends_refl _
              | apply docExtends_moveDown
              | apply docExtends_inline
              | apply docExtends_text
              | apply docExtends_fillColor
              | apply docExtends_fontSize
              | apply docExtends_font
          | some t2 =>
            dsimp only
            split_ifs with hcl2
            · refine Or.inr ⟨_, _, rfl, ?_, fun hi => hi⟩
              dsimp only
              repeat
                first
                | exact docExtends_refl _
                | apply docExtends_moveDown
                | apply docExtends_inline
                | apply docExtends_text
                | apply docExtends_fillColor
                | apply docExtends_fontSize
                | apply docExtends_font

            · refine Or.inr ⟨_, _, rfl, ?_, fun hi => hi⟩
              dsimp only
              repeat
                first
                | exact docExtends_refl _
                | apply docExtends_moveDown
                | apply docExtends_inline
                | apply docExtends_text
                | apply docExtends_fillColor
                | apply docExtends_fontSize
                | apply docExtends_font

        · refine Or.inr ⟨_, _, rfl, ?_, fun hi => hi⟩
          dsimp only
          repeat
            first
            | exact docExtends_refl _
            | apply docExtends_moveDown
            | apply docExtends_inline
            | apply docExtends_text
            | apply docExtends_fillColor
            | apply docExtends_fontSize
            | apply docExtends_font

        · refine Or.inr ⟨_, _, rfl, ?_, fun hi => hi⟩
          dsimp only
          repeat
            first
            | exact docExtends_refl _
            | apply docExtends_moveDown
            | apply docExtends_inline
            | apply docExtends_text
            | apply docExtends_fillColor
            | apply docExtends_fontSize
            | apply docExtends_font

  by_cases h2 : t.type = "paragraph_open"
  · rw [pdfStep.eq_def, if_neg h1, if_pos h2]
    cases hh : rest.head? with
    | none =>
      dsimp only
      split_ifs with hl
      · refine Or.inr ⟨_, _, rfl, ?_, fun hi => hi⟩
        dsimp only
        repeat
          first
          | exact docExtends_refl _
          | apply docExtends_moveDown
          | apply docExtends_inline
          | apply docExtends_text
          | apply docExtends_fillColor
          | apply docExtends_fontSize
          | apply docExtends_font

      · refine Or.inr ⟨_, _, rfl, ?_, fun hi => hi⟩
        dsimp only
        repeat
          first
          | exact docExtends_refl _
          | apply docExtends_moveDown
          | apply docExtends_inline
          | apply docExtends_text
          | apply docExtends_fillColor
          | apply docExtends_fontSize
          | apply docExtends_font

    | some t1 =>
      dsimp only
      split_ifs
      all_goals try (cases hh2 : rest[1]? <;> dsimp only <;> try split_ifs)
      all_goals (
        refine Or.inr ⟨_, _, rfl, ?_, fun hi => hi⟩
        dsimp only
        repeat
          first
          | exact docExtends_refl _
          | apply docExtends_moveDown
          | apply docExtends_inline
          | apply docExtends_text
          | apply docExtends_fillColor
          | apply docExtends_fontSize
          | apply docExtends_font)
  · rw [pdfStep.eq_def, if_neg h1, if_neg h2]
    by_cases h3 : t.type = "bullet_list_open"
    · rw [if_pos h3]
      exact Or.inr ⟨_, _, rfl, docExtends_moveDown (docExtends_refl _),
        fun _ => by simp [listInvariant]⟩
    rw [if_neg h3]
    by_cases h4 : t.type = "bullet_list_close"
    · rw [if_pos h4]
      exact Or.inr ⟨_, _, rfl, docExtends_moveDown (docExtends_refl _),
        fun _ => by simp [listInvariant]⟩
    rw [if_neg h4]
    by_cases h5 : t.type = "ordered_list_open"
    · rw [if_pos h5]
      exact Or.inr ⟨_, _, rfl, docExtends_moveDown (docExtends_refl _),
        fun _ => by simp [listInvariant]⟩
    rw [if_neg h5]
    by_cases h6 : t.type = "ordered_list_close"
    · rw [if_pos h6]
      exact Or.inr ⟨_, _, rfl, docExtends_moveDown (docExtends_refl _),
        fun _ => by simp [listInvariant]⟩
    rw [if_neg h6]
    by_cases h7 : t.type = "list_item_open"
    · rw [if_pos h7]
      cases hfi : findItemInline rest <;> dsimp only <;> split_ifs
      all_goals (
        refine Or.inr ⟨_, _, rfl, ?_, fun hi => hi⟩
        dsimp only
        repeat
          first
          | exact docExtends_refl _
          | apply docExtends_moveDown
          | apply docExtends_inline
          | apply docExtends_text
          | apply docExtends_fillColor
          | apply docExtends_fontSize
          | apply docExtends_font)
    rw [if_neg h7]
    by_cases h8 : t.type = "code_block" ∨ t.type = "fence"
    · rw [if_pos h8]
      refine Or.inr ⟨_, _, rfl, ?_, fun hi => hi⟩
      dsimp only
      repeat
        first
        | exact docExtends_refl _
        | apply docExtends_moveDown
        | apply docExtends_inline
        | apply docExtends_text
        | apply docExtends_fillColor
        | apply docExtends_fontSize
        | apply docExtends_font

    rw [if_neg h8]
    by_cases h9 : t.type = "hr"
    · rw [if_pos h9]
      exact Or.inr ⟨_, _, rfl,
        docExtends_moveDown (docExtends_hline (docExtends_moveDown (docExtends_refl _))),
        fun hi => hi⟩
    rw [if_neg h9]
    exact Or.inr ⟨_, _, rfl, docExtends_refl _, fun hi => hi⟩

theorem docxGo_invariant (f : Nat) :
    ∀ (ts : List Token) (s : DocxState), listInvariant s.inList s.listType →
      listInvariant (docxGo f ts s).inList (docxGo f ts s).listType := by
  induction f with
  | zero =>
    intro ts s h
    cases ts <;> simpa [docxGo]
  | succ f ih =>
    intro ts s h
    cases ts with
    | nil => simpa [docxGo]
    | cons t rest =>
      simp only [docxGo]
      exact ih _ _ (docxStep_invariant t rest s h)

theorem pdfGo_invariant (f : Nat) :
    ∀ (ts : List Token) (s : PdfState), listInvariant s.inList s.listType →
      ∀ s1, pdfGo f ts s = .ok s1 → listInvariant s1.inList s1.listType := by
  induction f with
  | zero =>
    intro ts s h s1 hok
    cases ts <;> (simp [pdfGo] at hok; simp [← hok, h])
  | succ f ih =>
    intro ts s h s1 hok
    cases ts with
    | nil =>
      simp [pdfGo] at hok
      simpa [← hok]
    | cons t rest =>
      simp only [pdfGo] at hok
      cases hstep : pdfStep t rest s with
      | error e => rw [hstep] at hok; cases hok
      | ok p =>
        rw [hstep] at hok
        rcases pdfStep_spec t rest s with hsp | ⟨s2, k, hsp, -, hinv⟩
        · rw [hstep] at hsp; cases hsp
        · rw [hstep] at hsp
          cases hsp
          exact ih _ _ (hinv h) s1 hok

/-- C8: in both block renderers, if the render context satisfies the invariant
(listType is none iff inList is false) at some point of the token loop, it
satisfies it after processing any remaining token stream; in particular every
intermediate context of a render started from the initial context (where it
holds) satisfies it, since every such context is the result of processing a
prefix from the initial one.  Every transition that sets inList also sets
listType consistently (the step lemmas above). -/
theorem C8_list_invariant :
    (∀ (ts : List Token) (s : DocxState), listInvariant s.inList s.listType →
        listInvariant (docxAux ts s).inList (docxAux ts s).listType) ∧
    (∀ (ts : List Token) (s : PdfState), listInvariant s.inList s.listType →
        ∀ s1, pdfAux ts s = .ok s1 → listInvariant s1.inList s1.listType) ∧
    listInvariant (DocxState.inList {}) (DocxState.listType {}) ∧
    listInvariant (PdfState.inList {}) (PdfState.listType {}) := by
  refine ⟨?_, ?_, by simp [listInvariant], by simp [listInvariant]⟩
  · intro ts s h
    exact docxGo_invariant _ ts s h
  · intro ts s h s1 hok
    exact pdfGo_invariant _ ts s h s1 hok

/-- C8 witness: the invariant theorem applied at a concrete token stream and the
initial contexts. -/
theorem C8_witness :
    listInvariant (docxAux [blockTok "bullet_list_open"] {}).inList
      (docxAux [blockTok "bullet_list_open"] {}).listType ∧
    listInvariant (PdfState.inList {}) (PdfState.listType {}) :=
  ⟨C8_list_invariant.1 [blockTok "bullet_list_open"] {} (by simp [listInvariant]),
   C8_list_invariant.2.2.2⟩

/-! Failure semantics of the two block renderers (the catch blocks). -/

theorem docxGoE_error (oracle : ParagraphT → Except Unit ParagraphT) (f : Nat) :
    ∀ (ts : List Token) (s : DocxState) (e : APIErrorT),
      docxGoE oracle f ts s = .error e → e = contentProcessingErrorMarkdown := by
  induction f with
  | zero =>
    intro ts s e hok
    cases ts <;> simp [docxGoE] at hok
  | succ f ih =>
    intro ts s e hok
    cases ts with
    | nil => simp [docxGoE] at hok
    | cons t rest =>
      simp only [docxGoE] at hok
      cases hstep : docxStepE oracle t rest s with
      | error u =>
        rw [hstep] at hok
        simp at hok
        exact hok.symm
      | ok p =>
        rw [hstep] at hok
        exact ih _ _ _ hok

theorem pdfGo_error (f : Nat) :
    ∀ (ts : List Token) (s : PdfState) (e : APIErrorT),
      pdfGo f ts s = .error e → e = pdfRenderingErrorMarkdown := by
  induction f with
  | zero =>
    intro ts s e hok
    cases ts <;> simp [pdfGo] at hok
  | succ f ih =>
    intro ts s e hok
    cases ts with
    | nil => simp [pdfGo] at hok
    | cons t rest =>
      simp only [pdfGo] at hok
      cases hstep : pdfStep t rest s with
      | error e0 =>
        rw [hstep] at hok
        rcases pdfStep_spec t rest s with hsp | ⟨s2, k, hsp, -, -⟩
        · rw [hstep] at hsp
          cases hsp
          cases hok
          rfl
        · rw [hstep] at hsp
          cases hsp
      | ok p =>
        rw [hstep] at hok
        exact ih _ _ _ hok

/-- C7: in both block renderers, any exception raised while converting a block
inside the per-iteration try is caught and re-raised as the single typed error
(ContentProcessingError with detail field markdown on the flow-document path,
PDFRenderingError with detail field markdown on the drawing-surface path),
aborting the whole render: the only error either loop can surface is that typed
error, and an erroring run returns no paragraph/command output at all. -/
theorem C7_failure_semantics :
    (∀ (oracle : ParagraphT → Except Unit ParagraphT) (ts : List Token) (s : DocxState)
        (e : APIErrorT),
        docxAuxE oracle ts s = .error e → e = contentProcessingErrorMarkdown) ∧
    (∀ (ts : List Token) (s : PdfState) (e : APIErrorT),
        pdfAux ts s = .error e → e = pdfRenderingErrorMarkdown) := by
  constructor
  · intro oracle ts s e h
    exact docxGoE_error oracle _ ts s e h
  · intro ts s e h
    exact pdfGo_error _ ts s e h

/-- C7 witness: a failing Paragraph constructor aborts the docx loop with the
typed ContentProcessingError, and a heading_open token with no tag aborts the
pdf loop with the typed PDFRenderingError. -/
theorem C7_witness :
    docxAuxE (fun _ => .error ()) [blockTok "hr"] {} =
        .error contentProcessingErrorMarkdown ∧
    pdfAux [blockTok "heading_open"] {} = .error pdfRenderingErrorMarkdown ∧
    contentProcessingErrorMarkdown = contentProcessingErrorMarkdown ∧
    pdfRenderingErrorMarkdown = pdfRenderingErrorMarkdown :=
  ⟨rfl, rfl,
   C7_failure_semantics.1 (fun _ => .error ()) [blockTok "hr"] {} _ rfl,
   C7_failure_semantics.2 [blockTok "heading_open"] {} _ rfl⟩

/-! Blockquotes in the drawing-surface backend. -/

theorem pdfStep_bqOpen (rest : List Token) (s : PdfState) :
    pdfStep (blockTok "blockquote_open") rest s = .ok (s, 0) := by
  simp [pdfStep, blockTok, Token.type]

theorem pdfStep_bqClose (rest : List Token) (s : PdfState) :
    pdfStep (blockTok "blockquote_close") rest s = .ok (s, 0) := by
  simp [pdfStep, blockTok, Token.type]

/-- C5: FALSE as stated.  The text inside a blockquote DOES appear in the
drawing-surface output: only the blockquote_open/close markers are skipped,
while the quote's inner paragraph tokens are processed by the paragraph branch
and its text is drawn. -/
theorem C5_counterexample :
    ∃ st, pdfAux c5Tokens {} = .ok st ∧ "quoted".toList ∈ cmdTexts st.doc.cmds :=
  ⟨_, rfl, by decide⟩

/-- C5 (amended): the drawing-surface backend has no blockquote branch, so
blockquote_open and blockquote_close tokens are skipped as exact no-ops
(no styling, no indent, no cursor movement); rendering a standard blockquote is
therefore identical to rendering its inner paragraph as a plain paragraph — the
content is preserved, only the blockquote styling is lost. -/
theorem C5_blockquote_passthrough :
    (∀ (rest : List Token) (s : PdfState),
        pdfAux (blockTok "blockquote_open" :: rest) s = pdfAux rest s) ∧
    (∀ (rest : List Token) (s : PdfState),
        pdfAux (blockTok "blockquote_close" :: rest) s = pdfAux rest s) ∧
    (∀ (c : Str) (cs : List Token) (rest : List Token) (s : PdfState),
        pdfAux (blockTok "blockquote_open" :: blockTok "paragraph_open" ::
            inlineTok c cs :: blockTok "paragraph_close" ::
            blockTok "blockquote_close" :: rest) s =
          pdfAux (blockTok "paragraph_open" :: inlineTok c cs ::
            blockTok "paragraph_close" :: rest) s) := by
  have hopen : ∀ (rest : List Token) (s : PdfState),
      pdfAux (blockTok "blockquote_open" :: rest) s = pdfAux rest s := by
    intro rest s
    rw [pdfAux_cons, pdfStep_bqOpen]
    rfl
  have hclose : ∀ (rest : List Token) (s : PdfState),
      pdfAux (blockTok "blockquote_close" :: rest) s = pdfAux rest s := by
    intro rest s
    rw [pdfAux_cons, pdfStep_bqClose]
    rfl
  have hdrop : ∀ (a b : Token) (l : List Token), List.drop 2 (a :: b :: l) = l :=
    fun _ _ _ => rfl
  refine ⟨hopen, hclose, ?_⟩
  intro c cs rest s
  rw [hopen]
  rw [pdfAux_cons, pdfAux_cons]
  have hstep : ∀ tail : List Token,
      pdfStep (blockTok "paragraph_open")
        (inlineTok c cs :: blockTok "paragraph_close" :: tail) s =
      .ok ({ s with doc :=
        (if s.inList then
          renderInlineTokens
            (((s.doc.font TYPOGRAPHY.fonts.serif).fontSize
                TYPOGRAPHY.sizes.body).fillColor TYPOGRAPHY.colors.text) cs
            { align := some "justify", lineGap := some 1 }
         else
          (renderInlineTokens
            (((s.doc.font TYPOGRAPHY.fonts.serif).fontSize
                TYPOGRAPHY.sizes.body).fillColor TYPOGRAPHY.colors.text) cs
            { align := some "justify", lineGap := some 1 }).moveDown) }, 2) := by
    intro tail
    simp [pdfStep, blockTok, inlineTok, Token.type, Token.children]
  rw [hstep, hstep]
  dsimp only
  rw [hdrop, hdrop, hclose]

/-- C6: FALSE as stated.  On an h4 heading the emitted block carries the
level-1 heading style, but NO font size at all: the branch computes the level-3
size into a local variable and never passes it to the Paragraph — the paragraph
has no text runs and no size property (sizes.h3 = 16, half-points 32). -/
theorem C6_counterexample :
    (docxAux c6Tokens {}).paragraphs = [headingPara .heading1 "Title".toList] ∧
    (headingPara .heading1 "Title".toList).children = [] ∧
    ¬ ∃ r ∈ ((docxAux c6Tokens {}).paragraphs.flatMap ParagraphT.children),
        r.size = some DOCX_STYLES.sizes.h3 ∨ r.size = some (2 * DOCX_STYLES.sizes.h3) := by
  refine ⟨rfl, rfl, ?_⟩
  decide

/-- C6 (amended): for a heading_open whose tag digit does not parse to 1, 2 or 3
(in particular any level above 3 or an unparseable tag), followed by an inline
token, the switch selects the level-1 heading style together with the level-3
font size, the loop emits exactly one heading block carrying the level-1 style
and the inline content — with no font size applied to the emitted block (its
run list is empty) — and no error is raised (the loop is total). -/
theorem C6_heading_fallback (tg : Option String)
    (hfb : levelOfTag tg ≠ some 1 ∧ levelOfTag tg ≠ some 2 ∧ levelOfTag tg ≠ some 3)
    (tcont : Str) (tchld : Option (List Token)) (c : Str) (ccs : Option (List Token))
    (rest : List Token) (s : DocxState) :
    docxHeadingStyle (levelOfTag tg) = (.heading1, DOCX_STYLES.sizes.h3) ∧
    docxAux (Token.mk "heading_open" tg tcont tchld :: Token.mk "inline" none c ccs ::
        rest) s =
      docxAux (rest.drop 1)
        { s with paragraphs := s.paragraphs ++ [headingPara .heading1 c] } ∧
    (headingPara .heading1 c).children = [] := by
  obtain ⟨hf1, hf2, hf3⟩ := hfb
  have hsty : docxHeadingStyle (levelOfTag tg) = (.heading1, DOCX_STYLES.sizes.h3) := by
    unfold docxHeadingStyle
    rw [if_neg hf1, if_neg hf2, if_neg hf3]
  refine ⟨hsty, ?_, rfl⟩
  rw [docxAux_cons]
  rw [docxStep_heading (Token.mk "heading_open" tg tcont tchld) _ _ rfl]
  dsimp only [Token.tag, Token.type, Token.content, List.head?]
  rw [hsty]
  rfl

/-- C6 witness: the fallback theorem applied at the concrete tag h4. -/
theorem C6_witness :
    docxHeadingStyle (levelOfTag (some "h4")) = (.heading1, DOCX_STYLES.sizes.h3) ∧
    docxAux (Token.mk "heading_open" (some "h4") [] none ::
        Token.mk "inline" none "Title".toList (some []) :: []) {} =
      docxAux ([].drop 1)
        { paragraphs := [headingPara .heading1 "Title".toList] } ∧
    (headingPara .heading1 "Title".toList).children = [] := by
  have := C6_heading_fallback (some "h4") (by decide) [] none "Title".toList (some [])
    [] {}
  simpa using this

theorem bulletNums_length (n : Nat) : ∀ c, (bulletNums c n).length = n := by
  induction n with
  | zero => intro c; rfl
  | succ n ih => intro c; simp [bulletNums, ih]

theorem bulletNums_get (n : Nat) :
    ∀ (c k : Nat), k < n → (bulletNums c n)[k]? = some (numStr (c + k)) := by
  induction n with
  | zero => intro c k hk; omega
  | succ n ih =>
    intro c k hk
    cases k with
    | zero => simp [bulletNums]
    | succ k =>
      have := ih (c + 1) k (by omega)
      simp only [bulletNums, List.getElem?_cons_succ]
      rw [this]
      have : c + 1 + k = c + (k + 1) := by omega
      rw [this]

theorem docxBullets_cons_item (c : Nat) (cs : List Token) (l : List ParagraphT) :
    docxBullets (itemParaFor c cs :: l) = numStr c :: docxBullets l := by
  simp [docxBullets, itemParaFor, itemPara, List.filterMap_cons]

theorem docxBullets_itemParas (items : List (List Token)) :
    ∀ c, docxBullets (docxItemParas c items) = bulletNums c items.length := by
  induction items with
  | nil => intro c; rfl
  | cons cs r ih =>
    intro c
    rw [docxItemParas, docxBullets_cons_item, ih]
    rfl

theorem docxStep_itemOrdered (cs : List Token) (tail : List Token) (b : Bool) (c : Nat)
    (ps : List ParagraphT) :
    docxStep (blockTok "list_item_open")
      (blockTok "paragraph_open" :: inlineTok [] cs :: blockTok "paragraph_close" ::
        blockTok "list_item_close" :: tail)
      ⟨b, some .ordered, c, ps⟩ =
    (⟨b, some .ordered, c + 1, ps ++ [itemParaFor c cs]⟩, 4) := by
  simp [docxStep, blockTok, inlineTok, Token.type, Token.children, itemParaFor]

theorem docxAux_ordered_items (items : List (List Token)) :
    ∀ (c : Nat) (b : Bool) (ps : List ParagraphT) (rest : List Token),
      docxAux ((items.map itemTokens).flatten ++ rest) ⟨b, some .ordered, c, ps⟩ =
        docxAux rest ⟨b, some .ordered, c + items.length, ps ++ docxItemParas c items⟩ := by
  induction items with
  | nil =>
    intro c b ps rest
    simp [docxItemParas]
  | cons cs r ih =>
    intro c b ps rest
    simp only [List.map_cons, List.flatten_cons, itemTokens, List.cons_append,
               List.nil_append, List.append_assoc]
    rw [docxAux_cons]
    rw [docxStep_itemOrdered]
    dsimp only
    rw [show List.drop 4 (blockTok "paragraph_open" :: inlineTok [] cs ::
          blockTok "paragraph_close" :: blockTok "list_item_close" ::
          ((r.map itemTokens).flatten ++ rest)) = (r.map itemTokens).flatten ++ rest
        from rfl]
    rw [ih]
    have hc : c + 1 + r.length = c + (cs :: r).length := by
      simp [List.length_cons]; omega
    have hps : (ps ++ [itemParaFor c cs]) ++ docxItemParas (c + 1) r =
        ps ++ docxItemParas c (cs :: r) := by
      simp [docxItemParas]
    rw [hc, hps]

theorem docxAux_orderedList (items : List (List Token)) (rest : List Token)
    (s : DocxState) :
    docxAux (orderedListTokens items ++ rest) s =
      docxAux rest ⟨false, none, 1 + items.length,
        (s.paragraphs ++ docxItemParas 1 items) ++ [spacerPara]⟩ := by
  unfold orderedListTokens
  rw [List.cons_append, docxAux_cons, docxStep_orderedOpen (blockTok "ordered_list_open") _ _ rfl]
  dsimp only
  rw [List.drop_zero, List.append_assoc]
  have := docxAux_ordered_items items 1 true s.paragraphs
    ([blockTok "ordered_list_close"] ++ rest)
  rw [this]
  rw [List.singleton_append, docxAux_cons, docxStep_orderedClose (blockTok "ordered_list_close") _ _ rfl]
  dsimp only
  rw [List.drop_zero]

theorem pdfBulletTexts_append (a b : List PdfCmd) :
    pdfBulletTexts (a ++ b) = pdfBulletTexts a ++ pdfBulletTexts b := by
  simp [pdfBulletTexts]

/-- The inline run builder never draws with continued: true outside Courier:
every flush and the final draw pass continued false, and the code_inline draw
is in Courier. -/
theorem renderInlineGo_bullets (cs : List Token) :
    ∀ (d : PdfDoc) (f : String) (buf : Str),
      pdfBulletTexts (renderInlineGo d f buf cs).cmds = pdfBulletTexts d.cmds := by
  induction cs with
  | nil =>
    intro d f buf
    simp only [renderInlineGo]
    split
    · simp [PdfDoc.text, PdfDoc.font, pdfBulletTexts_append, pdfBulletTexts]
    · simp [PdfDoc.text, pdfBulletTexts_append, pdfBulletTexts]
  | cons t rest ih =>
    intro d f buf
    simp only [renderInlineGo]
    have hflush : ∀ (d : PdfDoc) (f : String) (buf : Str),
        pdfBulletTexts (flushDoc d f buf).cmds = pdfBulletTexts d.cmds := by
      intro d f buf
      unfold flushDoc
      split_ifs
      · simp [PdfDoc.text, PdfDoc.font, pdfBulletTexts_append, pdfBulletTexts]
      · rfl
    split_ifs
    · rw [ih]
    · rw [ih, hflush]
    · rw [ih, hflush]
    · rw [ih, hflush]
    · rw [ih, hflush]
    · rw [ih]
      simp only [PdfDoc.font, PdfDoc.text]
      rw [pdfBulletTexts_append, hflush]
      simp [pdfBulletTexts]
    · rw [ih]

theorem renderInlineTokens_bullets (d : PdfDoc) (cs : List Token)
    (o : InlineRenderOptions) :
    pdfBulletTexts (renderInlineTokens d cs o).cmds = pdfBulletTexts d.cmds := by
  unfold renderInlineTokens
  split
  · rfl
  · rw [renderInlineGo_bullets]

/-- The inline run builder appends commands carrying no bullet draws. -/
theorem renderInlineTokens_delta (d : PdfDoc) (cs : List Token)
    (o : InlineRenderOptions) :
    ∃ δ, (renderInlineTokens d cs o).cmds = d.cmds ++ δ ∧ pdfBulletTexts δ = [] := by
  obtain ⟨δ, hcmds, -⟩ := @docExtends_inline d d cs o (docExtends_refl d)
  refine ⟨δ, hcmds, ?_⟩
  have h1 := renderInlineTokens_bullets d cs o
  rw [hcmds, pdfBulletTexts_append] at h1
  exact List.append_cancel_left (h1.trans (List.append_nil _).symm)

theorem pdfStep_itemOrdered (cs : List Token) (tail : List Token) (doc : PdfDoc)
    (c : Nat) :
    pdfStep (blockTok "list_item_open")
      (blockTok "paragraph_open" :: inlineTok [] cs :: blockTok "paragraph_close" ::
        blockTok "list_item_close" :: tail)
      ⟨doc, true, some .ordered, c⟩ =
    .ok (⟨(renderInlineTokens ((pdfBodyFonts doc).text (numStr c) true) cs
            { align := some "left", lineGap := some 2 }).moveDown,
          true, some .ordered, c + 1⟩, 0) := by
  simp [pdfStep, blockTok, inlineTok, Token.type, Token.children, findItemInline,
        pdfBodyFonts]

theorem pdfStep_paragraphInList (cs : List Token) (tail : List Token) (doc : PdfDoc)
    (lt : Option ListType) (c : Nat) :
    pdfStep (blockTok "paragraph_open")
      (inlineTok [] cs :: blockTok "paragraph_close" :: tail)
      ⟨doc, true, lt, c⟩ =
    .ok (⟨renderInlineTokens (pdfBodyFonts doc) cs
            { align := some "justify", lineGap := some 1 }, true, lt, c⟩, 2) := by
  simp [pdfStep, blockTok, inlineTok, Token.type, Token.children, pdfBodyFonts]

theorem pdfStep_itemClose (rest : List Token) (s : PdfState) :
    pdfStep (blockTok "list_item_close") rest s = .ok (s, 0) := by
  simp [pdfStep, blockTok, Token.type]

theorem pdfStep_orderedListOpen (rest : List Token) (s : PdfState) :
    pdfStep (blockTok "ordered_list_open") rest s =
      .ok ({ s with inList := true, listType := some .ordered, orderedListCounter := 1,
                    doc := s.doc.moveDown }, 0) := by
  simp [pdfStep, blockTok, Token.type]

theorem pdfStep_orderedListClose (rest : List Token) (s : PdfState) :
    pdfStep (blockTok "ordered_list_close") rest s =
      .ok ({ s with inList := false, listType := none, doc := s.doc.moveDown }, 0) := by
  simp [pdfStep, blockTok, Token.type]

/-- Processing a run of standard-shaped items in the pdf backend, from an
ordered-list context with counter c: the counter advances once per item and the
bullet draws appended are exactly the numerals c., c+1., ...  (each item's
inline content is rendered by the item branch and again by the paragraph
branch, but neither render draws a bullet). -/
theorem pdfAux_ordered_items (items : List (List Token)) :
    ∀ (c : Nat) (doc : PdfDoc) (rest : List Token),
      ∃ doc2,
        pdfAux ((items.map itemTokens).flatten ++ rest) ⟨doc, true, some .ordered, c⟩ =
          pdfAux rest ⟨doc2, true, some .ordered, c + items.length⟩ ∧
        pdfBulletTexts doc2.cmds = pdfBulletTexts doc.cmds ++ bulletNums c items.length := by
  induction items with
  | nil =>
    intro c doc rest
    exact ⟨doc, by simp, by simp [bulletNums]⟩
  | cons cs r ih =>
    intro c doc rest
    simp only [List.map_cons, List.flatten_cons, itemTokens, List.cons_append,
               List.nil_append, List.append_assoc]
    rw [pdfAux_cons, pdfStep_itemOrdered]
    dsimp only
    rw [List.drop_zero]
    rw [pdfAux_cons, pdfStep_paragraphInList]
    dsimp only
    rw [show List.drop 2 (inlineTok [] cs :: blockTok "paragraph_close" ::
          blockTok "list_item_close" :: ((r.map itemTokens).flatten ++ rest)) =
        blockTok "list_item_close" :: ((r.map itemTokens).flatten ++ rest) from rfl]
    rw [pdfAux_cons, pdfStep_itemClose]
    dsimp only
    rw [List.drop_zero]
    obtain ⟨doc2, heq, hbul⟩ := ih (c + 1)
      (renderInlineTokens (pdfBodyFonts
        ((renderInlineTokens ((pdfBodyFonts doc).text (numStr c) true) cs
          { align := some "left", lineGap := some 2 }).moveDown)) cs
        { align := some "justify", lineGap := some 1 }) rest
    refine ⟨doc2, ?_, ?_⟩
    · rw [heq]
      have hc : c + 1 + r.length = c + (cs :: r).length := by
        simp [List.length_cons]; omega
      rw [hc]
    · rw [hbul]
      obtain ⟨δ1, hδ1, hb1⟩ := renderInlineTokens_delta
        ((pdfBodyFonts doc).text (numStr c) true) cs
        { align := some "left", lineGap := some 2 }
      obtain ⟨δ2, hδ2, hb2⟩ := renderInlineTokens_delta
        (pdfBodyFonts ((renderInlineTokens ((pdfBodyFonts doc).text (numStr c) true) cs
          { align := some "left", lineGap := some 2 }).moveDown)) cs
        { align := some "justify", lineGap := some 1 }
      simp only [pdfBodyFonts, PdfDoc.font, PdfDoc.fontSize, PdfDoc.fillColor,
                 PdfDoc.moveDown, PdfDoc.text] at hδ1 hδ2 ⊢
      rw [hδ2, hδ1]
      simp only [List.append_assoc, pdfBulletTexts_append, hb1, hb2]
      simp [pdfBulletTexts, bulletNums, TYPOGRAPHY.fonts.serif]

theorem pdfBulletTexts_moveDown (d : PdfDoc) :
    pdfBulletTexts d.moveDown.cmds = pdfBulletTexts d.cmds := by
  simp [PdfDoc.moveDown, pdfBulletTexts_append, pdfBulletTexts]

/-- Processing one whole ordered list in the pdf backend: the counter is reset
to 1 at the open, the Nth item draws the numeral N, and the close clears the
list context. -/
theorem pdfAux_orderedList (items : List (List Token)) (rest : List Token)
    (s : PdfState) :
    ∃ doc2,
      pdfAux (orderedListTokens items ++ rest) s =
        pdfAux rest ⟨doc2, false, none, 1 + items.length⟩ ∧
      pdfBulletTexts doc2.cmds =
        pdfBulletTexts s.doc.cmds ++ bulletNums 1 items.length := by
  unfold orderedListTokens
  rw [List.cons_append, pdfAux_cons, pdfStep_orderedListOpen]
  dsimp only
  rw [List.drop_zero, List.append_assoc]
  obtain ⟨doc2, heq, hbul⟩ := pdfAux_ordered_items items 1 s.doc.moveDown
    ([blockTok "ordered_list_close"] ++ rest)
  rw [heq]
  rw [List.singleton_append, pdfAux_cons, pdfStep_orderedListClose]
  dsimp only
  rw [List.drop_zero]
  refine ⟨doc2.moveDown, rfl, ?_⟩
  rw [pdfBulletTexts_moveDown, hbul, pdfBulletTexts_moveDown]

/-- C3: for every pair of consecutive non-nested ordered lists of
standard-shaped items with arbitrary inline content, in both backends the Nth
list item emits the numeral prefix N (1-indexed), and the counter resets to 1
at each ordered_list_open regardless of the content inside the items. -/
theorem C3_ordered_numbering :
    (∀ (A B : List (List Token)) (s : DocxState),
        (docxAux (orderedListTokens A ++ orderedListTokens B) s).paragraphs =
          (((s.paragraphs ++ docxItemParas 1 A) ++ [spacerPara]) ++ docxItemParas 1 B) ++
            [spacerPara]) ∧
    (∀ (c : Nat) (items : List (List Token)),
        docxBullets (docxItemParas c items) = bulletNums c items.length) ∧
    (∀ (A B : List (List Token)) (s : PdfState), ∃ st,
        pdfAux (orderedListTokens A ++ orderedListTokens B) s = .ok st ∧
        pdfBulletTexts st.doc.cmds =
          pdfBulletTexts s.doc.cmds ++
            (bulletNums 1 A.length ++ bulletNums 1 B.length)) ∧
    (∀ (n k : Nat), k < n → (bulletNums 1 n)[k]? = some (numStr (1 + k))) := by
  refine ⟨?_, ?_, ?_, ?_⟩
  · intro A B s
    rw [docxAux_orderedList A (orderedListTokens B) s]
    have h2 := docxAux_orderedList B []
      ⟨false, none, 1 + A.length, (s.paragraphs ++ docxItemParas 1 A) ++ [spacerPara]⟩
    rw [List.append_nil] at h2
    rw [h2, docxAux_nil]
  · intro c items
    exact docxBullets_itemParas items c
  · intro A B s
    obtain ⟨docA, heqA, hbulA⟩ := pdfAux_orderedList A (orderedListTokens B) s
    rw [heqA]
    have h2 := pdfAux_orderedList B [] ⟨docA, false, none, 1 + A.length⟩
    rw [List.append_nil] at h2
    obtain ⟨docB, heqB, hbulB⟩ := h2
    rw [heqB, pdfAux_nil]
    refine ⟨_, rfl, ?_⟩
    dsimp only at hbulB ⊢
    rw [hbulB, hbulA, List.append_assoc]
  · intro n k hk
    rw [bulletNums_get n 1 k hk]

/-- C3 witness: the numbering clause applied at a concrete list length and
index. -/
theorem C3_witness : (bulletNums 1 2)[1]? = some (numStr (1 + 1)) :=
  C3_ordered_numbering.2.2.2 2 1 (by decide)

/-- C2: the code renders the item's inline content TWICE.  The list_item_open
branch draws the bullet and renders the item's children via lookahead, but does
not advance the loop index, so the following paragraph_open branch renders the
same children again: on "- hello" the text "hello" is drawn twice. -/
theorem C2_item_text_duplicated :
    ∃ st, pdfAux c2Tokens {} = .ok st ∧
      (cmdTexts st.doc.cmds).count "hello".toList = 2 ∧
      "• ".toList ∈ cmdTexts st.doc.cmds :=
  ⟨_, rfl, by decide, by decide⟩

theorem countPageBreaks_append (a b : List ParagraphT) :
    countPageBreaks (a ++ b) = countPageBreaks a + countPageBreaks b := by
  simp [countPageBreaks, List.countP_append]

/-- No paragraph pushed by the flow-document block renderer has
pageBreakBefore set. -/
theorem docxStep_no_pagebreak (t : Token) (rest : List Token) (s : DocxState) :
    countPageBreaks (docxStep t rest s).1.paragraphs = countPageBreaks s.paragraphs := by
  by_cases h1 : t.type = "heading_open"
  · rw [docxStep_heading t rest s h1]
    cases rest.head? with
    | none => rfl
    | some t1 =>
      dsimp only
      split_ifs <;>
        simp [countPageBreaks_append, countPageBreaks, headingPara]
  by_cases h2 : t.type = "paragraph_open"
  · rw [docxStep_paragraph t rest s h2]
    cases rest.head? with
    | none => rfl
    | some t1 =>
      dsimp only
      split_ifs <;>
        simp [countPageBreaks_append, countPageBreaks, paraBlock]
  by_cases h3 : t.type = "bullet_list_open"
  · rw [docxStep_bulletOpen t rest s h3]
  by_cases h4 : t.type = "bullet_list_close"
  · rw [docxStep_bulletClose t rest s h4]
    simp [countPageBreaks_append, countPageBreaks, spacerPara]
  by_cases h5 : t.type = "ordered_list_open"
  · rw [docxStep_orderedOpen t rest s h5]
  by_cases h6 : t.type = "ordered_list_close"
  · rw [docxStep_orderedClose t rest s h6]
    simp [countPageBreaks_append, countPageBreaks, spacerPara]
  by_cases h7 : t.type = "list_item_open"
  · rw [docxStep_item t rest s h7]
    cases rest[1]? with
    | none => rfl
    | some t2 =>
      dsimp only
      split_ifs <;>
        simp [countPageBreaks_append, countPageBreaks, itemPara]
  by_cases h8 : t.type = "blockquote_open"
  · rw [docxStep_blockquote t rest s h8]
    cases rest[1]? with
    | none => rfl
    | some t2 =>
      dsimp only
      split_ifs <;>
        simp [countPageBreaks_append, countPageBreaks, quotePara]
  by_cases h9 : t.type = "code_block"
  · rw [docxStep_code t rest s (Or.inl h9)]
    simp [countPageBreaks_append, countPageBreaks, codePara]
  by_cases h10 : t.type = "fence"
  · rw [docxStep_code t rest s (Or.inr h10)]
    simp [countPageBreaks_append, countPageBreaks, codePara]
  by_cases h11 : t.type = "hr"
  · rw [docxStep_hr t rest s h11]
    simp [countPageBreaks_append, countPageBreaks, hrPara]
  rw [docxStep_other t rest s h1 h2 h3 h4 h5 h6 h7 h8 h9 h10 h11]

theorem docxGo_no_pagebreak (f : Nat) :
    ∀ (ts : List Token) (s : DocxState),
      countPageBreaks (docxGo f ts s).paragraphs = countPageBreaks s.paragraphs := by
  induction f with
  | zero =>
    intro ts s
    cases ts <;> simp [docxGo]
  | succ f ih =>
    intro ts s
    cases ts with
    | nil => simp [docxGo]
    | cons t rest =>
      simp only [docxGo]
      rw [ih, docxStep_no_pagebreak]

/-- processMarkdownToDocx emits no page breaks. -/
theorem processMarkdownToDocx_no_pagebreak (parse : Str → List Token) (md : Str) :
    countPageBreaks (processMarkdownToDocx parse md) = 0 := by
  unfold processMarkdownToDocx docxAux
  rw [docxGo_no_pagebreak]
  rfl

theorem docxChaptersGo_count_pos (parse : Str → List Token) :
    ∀ (chs : List ChapterT) (idx : Nat), 0 < idx →
      countPageBreaks (docxChaptersGo parse idx chs) = chs.length := by
  intro chs
  induction chs with
  | nil => intro idx h; rfl
  | cons ch rest ih =>
    intro idx h
    simp only [docxChaptersGo]
    rw [if_pos h]
    rw [countPageBreaks_append, countPageBreaks_append, countPageBreaks_append]
    rw [ih (idx + 1) (by omega), processMarkdownToDocx_no_pagebreak]
    simp [countPageBreaks, pageBreakPara, chapterTitlePara]
    omega

/-- Whether pdfGo succeeds, the document only gains non-addPage commands. -/
theorem pdfGo_extends (f : Nat) :
    ∀ (ts : List Token) (s : PdfState) (s1 : PdfState),
      pdfGo f ts s = .ok s1 → DocExtends s.doc s1.doc := by
  induction f with
  | zero =>
    intro ts s s1 hok
    cases ts <;> (simp [pdfGo] at hok; rw [← hok]; exact docExtends_refl _)
  | succ f ih =>
    intro ts s s1 hok
    cases ts with
    | nil =>
      simp [pdfGo] at hok
      rw [← hok]
      exact docExtends_refl _
    | cons t rest =>
      simp only [pdfGo] at hok
      cases hstep : pdfStep t rest s with
      | error e => rw [hstep] at hok; cases hok
      | ok p =>
        rw [hstep] at hok
        rcases pdfStep_spec t rest s with hsp | ⟨s2, k, hsp, hext, -⟩
        · rw [hstep] at hsp; cases hsp
        · rw [hstep] at hsp
          cases hsp
          obtain ⟨δ1, hc1, ha1⟩ := hext
          obtain ⟨δ2, hc2, ha2⟩ := ih _ _ _ hok
          refine ⟨δ1 ++ δ2, by rw [hc2, hc1, List.append_assoc], ?_⟩
          simp only [countAddPage, List.countP_append] at ha1 ha2 ⊢
          omega

/-- renderMarkdown never adds a page break. -/
theorem renderMarkdown_no_addPage (parse : Str → List Token) (md : Str)
    (doc d : PdfDoc) (h : renderMarkdown parse md doc = .ok d) :
    countAddPage d.cmds = countAddPage doc.cmds := by
  unfold renderMarkdown at h
  split_ifs at h
  · cases h; rfl
  · cases hres : pdfAux (parse md) { doc := doc } with
    | error e => rw [hres] at h; cases h
    | ok st =>
      rw [hres] at h
      cases h
      obtain ⟨δ, hc, ha⟩ := pdfGo_extends _ _ _ _ hres
      rw [hc]
      simp only [countAddPage, List.countP_append] at ha ⊢
      omega

theorem pdfChaptersGo_count (parse : Str → List Token) :
    ∀ (chs : List ChapterT) (idx : Nat) (doc d : PdfDoc),
      pdfChaptersGo parse idx chs doc = .ok d →
      countAddPage d.cmds = countAddPage doc.cmds + chs.length := by
  intro chs
  induction chs with
  | nil =>
    intro idx doc d h
    cases h
    rfl
  | cons ch rest ih =>
    intro idx doc d h
    simp only [pdfChaptersGo] at h
    split_ifs at h with hws
    · dsimp only at h
      rw [ih _ _ _ h]
      simp only [PdfDoc.moveDown, PdfDoc.text, PdfDoc.fillColor, PdfDoc.fontSize,
                 PdfDoc.font, PdfDoc.addPage, countAddPage, List.countP_append,
                 List.length_cons]
      simp [isAddPage, List.countP_cons]
      omega
    · cases hrm : renderMarkdown parse ch.content
          ((((doc.addPage.font TYPOGRAPHY.fonts.sansBold).fontSize
              TYPOGRAPHY.sizes.chapterTitle).fillColor TYPOGRAPHY.colors.heading).text
            (chapterDisplayTitle idx ch) false).moveDown with
      | error e =>
        rw [hrm] at h
        cases h
      | ok d3 =>
        rw [hrm] at h
        dsimp only at h
        rw [ih _ _ _ h]
        rw [renderMarkdown_no_addPage parse ch.content _ _ hrm]
        simp only [PdfDoc.moveDown, PdfDoc.text, PdfDoc.fillColor, PdfDoc.fontSize,
                   PdfDoc.font, PdfDoc.addPage, countAddPage, List.countP_append,
                   List.length_cons]
        simp [isAddPage, List.countP_cons]
        omega

/-- C4: FALSE as stated for the drawing-surface backend.  exportAsPDFService
calls doc.addPage() at the start of EVERY chapter, including the first: for 2
chapters the chapter loop issues 2 page breaks (not 2-1 = 1), and the very
first command issued precedes the first chapter's title and is a page break. -/
theorem C4_counterexample :
    ∃ d, pdfChaptersGo (fun _ => []) 0 c4Chapters {} = .ok d ∧
      countAddPage d.cmds = 2 ∧ d.cmds.head? = some .addPage ∧
      c4Chapters.length - 1 = 1 :=
  ⟨_, rfl, by decide, by decide, rfl⟩

/-- C4 (amended): the flow-document assembler inserts a page-break paragraph
before every chapter except the first (exactly n-1 breaks in the chapter
region, whose first paragraph is the first chapter's title, not a break); the
drawing-surface assembler instead calls addPage before EVERY chapter including
the first, issuing exactly n page breaks for n chapters. -/
theorem C4_chapter_page_breaks :
    (∀ (parse : Str → List Token) (chs : List ChapterT),
        countPageBreaks (docxChapterSections parse chs) = chs.length - 1) ∧
    (∀ (parse : Str → List Token) (ch : ChapterT) (chs : List ChapterT),
        (docxChapterSections parse (ch :: chs)).head? = some (chapterTitlePara 0 ch) ∧
        (chapterTitlePara 0 ch).pageBreakBefore = false) ∧
    (∀ (parse : Str → List Token) (idx : Nat) (chs : List ChapterT) (doc d : PdfDoc),
        pdfChaptersGo parse idx chs doc = .ok d →
        countAddPage d.cmds = countAddPage doc.cmds + chs.length) := by
  refine ⟨?_, ?_, ?_⟩
  · intro parse chs
    cases chs with
    | nil => rfl
    | cons ch rest =>
      unfold docxChapterSections
      simp only [docxChaptersGo, gt_iff_lt, Nat.lt_irrefl, if_false]
      rw [countPageBreaks_append, countPageBreaks_append, countPageBreaks_append]
      rw [docxChaptersGo_count_pos parse rest 1 (by omega),
          processMarkdownToDocx_no_pagebreak]
      simp [countPageBreaks, chapterTitlePara]
  · intro parse ch chs
    constructor
    · unfold docxChapterSections
      simp [docxChaptersGo]
    · rfl
  · intro parse idx chs doc d h
    exact pdfChaptersGo_count parse chs idx doc d h

/-- C4 witness: the pdf clause applied at the concrete two-chapter book. -/
theorem C4_witness :
    countAddPage ((pdfChaptersGo (fun _ => []) 0 c4Chapters {}).toOption.getD {}).cmds =
      countAddPage (PdfDoc.cmds {}) + c4Chapters.length :=
  C4_chapter_page_breaks.2.2 (fun _ => []) 0 c4Chapters {} _ rfl

/-- C10: every ImageProcessingError or ContentProcessingError raised by
exportAsPDFService occurs only after the two response headers are set and the
document is piped to the response: whenever the service returns such an error,
its event trace starts with exactly setHeader Content-Type, setHeader
Content-Disposition, pipe. -/
theorem C10_pipe_before_errors
    (parse : Str → List Token) (bookId userId : Str) (found : Option BookT)
    (coverOk : Bool) (e : APIErrorT)
    (herr : (exportAsPDFServiceM parse bookId userId found coverOk).2 = .error e)
    (htype : e.errType = "ImageProcessingError" ∨ e.errType = "ContentProcessingError") :
    ∃ b, found = some b ∧
      (exportAsPDFServiceM parse bookId userId found coverOk).1.take 3 =
        [ResEvent.setHeader "Content-Type" "application/pdf".toList,
         ResEvent.setHeader "Content-Disposition" (dispositionValue b.title),
         ResEvent.pipe] := by
  unfold exportAsPDFServiceM at herr ⊢
  cases found with
  | none =>
    split_ifs at herr <;> dsimp only at herr <;> cases herr <;>
      simp [invalidInputBookId, notFoundBook] at htype
  | some b =>
    refine ⟨b, rfl, ?_⟩
    dsimp only at herr ⊢
    by_cases hbid : bookId = []
    · rw [if_pos hbid] at herr
      dsimp only at herr
      cases herr
      simp [invalidInputBookId] at htype
    rw [if_neg hbid] at herr ⊢
    try dsimp only at herr ⊢
    by_cases huid : b.userId ≠ userId
    · rw [if_pos huid] at herr
      dsimp only at herr
      cases herr
      simp [forbiddenBook] at htype
    rw [if_neg huid] at herr ⊢
    try dsimp only at herr ⊢
    clear herr htype
    cases hurl : b.coverImageUrl with
    | none =>
      dsimp only
      cases pdfChaptersGo parse 0 b.chapters (pdfTitlePage {} b) <;> rfl
    | some url =>
      dsimp only
      by_cases hcv : coverOk
      · rw [if_pos hcv]
        dsimp only
        cases pdfChaptersGo parse 0 b.chapters
          (pdfTitlePage (PdfDoc.addPage (PdfDoc.image {})) b) <;> rfl
      · rw [if_neg hcv]
        rfl

/-- C10 witness: the theorem applied at a concrete failing cover fetch. -/
theorem C10_witness :
    ∃ b, (some c10Book) = some b ∧
      (exportAsPDFServiceM (fun _ => []) ['b'] ['u'] (some c10Book) false).1.take 3 =
        [ResEvent.setHeader "Content-Type" "application/pdf".toList,
         ResEvent.setHeader "Content-Disposition" (dispositionValue b.title),
         ResEvent.pipe] :=
  C10_pipe_before_errors (fun _ => []) ['b'] ['u'] (some c10Book) false
    imageProcessingErrorCover rfl (Or.inl rfl)
